import Mathlib

/-!
Verification of the CTS (Compose Tracking Service) core against its source.

The definitions below are a shallow embedding of the Python source in
`cts/models.py`, `cts/events.py` and `cts/messaging.py`:

* the database is an explicit in-memory store (lists of rows), a committed
  `session.commit()` is explicit state passing, and the SQL unique
  constraints on `composes.id` and `composes.release_date_respin` are the
  success condition of `tryInsert`;
* `Compose.create`'s unbounded `while True` retry loop is given explicit
  fuel (`none` plays the role of "still looping");
* exceptions (`ValueError`, `IntegrityError`, the crash in
  `retag_stale_composes`) are `Except` values;
* `datetime.utcnow()` is an explicit `now : Nat` parameter and delays are
  rationals.
-/

namespace CTS

/-- Substring test, modelling Python's `needle in haystack` and the SQL
`column.contains(...)` filter used in `retag_stale_composes`. -/
def strHasSub (haystack needle : String) : Bool :=
  go needle.toList haystack.toList
where
  go (needle : List Char) : List Char → Bool
    | [] => needle.isEmpty
    | c :: rest => needle.isPrefixOf (c :: rest) || go needle rest

/-! ## Compose metadata (productmd.ComposeInfo) -/

/-- Suffix appended to the compose id for each compose type.  Modelled from
the spec: `productmd.ComposeInfo` is an external library, not part of this
repository; the spec describes the id as derived from release short,
version, date, type and respin, e.g. `Fedora-Rawhide-20200517.n.1`. -/
def typeSuffix : String → String
  | "production" => ""
  | "nightly" => ".n"
  | "test" => ".t"
  | "ci" => ".ci"
  | other => "." ++ other

/-- The mutable `productmd.ComposeInfo` metadata handed to `Compose.create`.
Only the fields the model reads are listed, plus `composeId` which mirrors
`ci.compose.id` (the field `Compose.create` reassigns on each respin bump). -/
structure CI where
  composeId : String
  releaseShort : String
  releaseVersion : String
  releaseName : String
  date : String
  respin : Nat
  composeType : String
  label : Option String
  final : Bool
  releaseIsLayered : Bool
  releaseType : Option String
  releaseInternal : Bool
  baseProductName : Option String
  baseProductShort : Option String
  baseProductVersion : Option String
  baseProductType : Option String
deriving DecidableEq, Repr

/-- Modelled from the spec: `ci.create_compose_id()` of the external
productmd library, producing e.g. `Fedora-Rawhide-20200517.n.1`. -/
def CI.createComposeId (ci : CI) : String :=
  ci.releaseShort ++ "-" ++ ci.releaseVersion ++ "-" ++ ci.date
    ++ typeSuffix ci.composeType ++ "." ++ toString ci.respin

/-- The `release_date_respin` string computed at the top of the allocator
loop: `f"{release.short}-{release.version}-{date}.{respin}"`. -/
def CI.releaseDateRespin (ci : CI) : String :=
  ci.releaseShort ++ "-" ++ ci.releaseVersion ++ "-" ++ ci.date
    ++ "." ++ toString ci.respin

/-- Copy of `ci` with the respin replaced (helper for stating which respin
an attempt of the allocator loop used). -/
def CI.setRespin (ci : CI) (r : Nat) : CI :=
  { ci with respin := r }

/-- The end-of-loop-body update `ci.compose.respin += 1` followed by
`ci.compose.id = ci.create_compose_id()`. -/
def CI.bumpRespin (ci : CI) : CI :=
  let ci' := { ci with respin := ci.respin + 1 }
  { ci' with composeId := ci'.createComposeId }

/-! ## Database rows -/

/-- Row of the `composes` table (the columns the claims involve; the
`date_respin` column is never set by `Compose.create`, hence null and exempt
from its unique constraint, so it is omitted).  The association rows of
`composes_to_composes` and the `respin_of_id` foreign key are stored inline
as `parents` and `respinOfId`. -/
structure ComposeRow where
  id : String
  date : String
  respin : Nat
  releaseDateRespin : Option String
  composeType : String
  label : Option String
  final : Bool
  releaseName : String
  releaseVersion : String
  releaseShort : String
  releaseIsLayered : Bool
  releaseType : Option String
  releaseInternal : Bool
  baseProductName : Option String
  baseProductShort : Option String
  baseProductVersion : Option String
  baseProductType : Option String
  builder : String
  composeUrl : Option String
  parents : List String
  respinOfId : Option String
deriving DecidableEq, Repr

/-- Row of the `compose_changes` table.  Users are stored by username (the
`users.username` column is unique, so `user_id` and username are in
bijection). -/
structure ComposeChangeRow where
  time : Nat
  composeId : String
  action : String
  user : String
  message : Option String
  userData : Option String
deriving DecidableEq, Repr

/-- The part of the database state `Compose.create` touches: the `composes`
table and the `compose_changes` table. -/
structure Store where
  composes : List ComposeRow
  changes : List ComposeChangeRow
deriving DecidableEq, Repr

/-! ## The identifier allocator (`Compose.create`, models.py lines 556-662) -/

/-- The `kwargs` dictionary built at the top of the allocator loop. -/
def mkKwargs (builder : String) (composeUrl : Option String) (ci : CI) :
    ComposeRow :=
  { id := ci.createComposeId
    date := ci.date
    respin := ci.respin
    releaseDateRespin := some ci.releaseDateRespin
    composeType := ci.composeType
    label := ci.label
    final := ci.final
    releaseName := ci.releaseName
    releaseVersion := ci.releaseVersion
    releaseShort := ci.releaseShort
    releaseIsLayered := ci.releaseIsLayered
    releaseType := ci.releaseType
    releaseInternal := ci.releaseInternal
    baseProductName := ci.baseProductName
    baseProductShort := ci.baseProductShort
    baseProductVersion := ci.baseProductVersion
    baseProductType := ci.baseProductType
    builder := builder
    composeUrl := composeUrl
    parents := []
    respinOfId := none }

/-- Does `row` violate a unique constraint against a new row with id `cid`
and (non-null) `release_date_respin` value `rdr`?  This is both the reason
`session.commit()` raises `IntegrityError`/`FlushError` and the filter of
the re-query `Compose.id == kwargs["id"] | Compose.release_date_respin ==
release_date_respin`. -/
def conflictsWith (row : ComposeRow) (cid rdr : String) : Bool :=
  row.id == cid || row.releaseDateRespin == some rdr

/-- The `session.add(compose); session.commit()` pair inside the allocator
loop: the insert succeeds exactly when no existing row violates the unique
constraints on `id` and `release_date_respin` (`rdr` is the new row's
non-null `release_date_respin` value). -/
def tryInsert (s : Store) (row : ComposeRow) (rdr : String) : Except Unit Store :=
  if s.composes.any (fun r => conflictsWith r row.id rdr) then Except.error ()
  else Except.ok { s with composes := s.composes ++ [row] }

/-- The query re-checking the conflict after a rollback (models.py 640-643):
`Compose.query.filter((Compose.id == kwargs["id"]) |
(Compose.release_date_respin == release_date_respin)).first()`. -/
def findConflict (s : Store) (cid rdr : String) : Option ComposeRow :=
  s.composes.find? (fun r => conflictsWith r cid rdr)

/-- The message of the error propagated when the integrity failure cannot be
attributed to an existing compose (the bare `raise` at models.py 645). -/
def integrityErrorMsg : String := "IntegrityError"

/-- The body of the `except (IntegrityError, FlushError)` handler
(models.py 633-649): after the rollback, re-query for a compose with the
same id or the same `release_date_respin`; if none exists re-raise the
original error, otherwise bump the respin (and recompute `ci.compose.id`)
and let the loop retry. -/
def retryDecision (s : Store) (cid rdr : String) (ci : CI) :
    Except String CI :=
  match findConflict s cid rdr with
  | none => Except.error integrityErrorMsg
  | some _ => Except.ok ci.bumpRespin

/-- The `while True` allocator loop (models.py 603-649).  The source loop is
unbounded; `fuel` bounds the recursion and `none` means the loop was still
running when the fuel ran out.  On success the result carries the store
with the committed row, the row itself and the (possibly respin-bumped)
metadata. -/
def createLoop (builder : String) (composeUrl : Option String) :
    Store → CI → Nat → Option (Except String (Store × ComposeRow × CI))
  | _, _, 0 => none
  | s, ci, fuel + 1 =>
    let rdr := ci.releaseDateRespin
    let kwargs := mkKwargs builder composeUrl ci
    match tryInsert s kwargs rdr with
    | Except.ok s' => some (Except.ok (s', kwargs, ci))
    | Except.error _ =>
      match retryDecision s kwargs.id rdr ci with
      | Except.error e => some (Except.error e)
      | Except.ok ci' => createLoop builder composeUrl s ci' fuel

/-- Parent-compose resolution (models.py 581-592): look every id of
`parent_compose_ids` up in order, raising `ValueError` for the first
missing one. -/
def resolveParents (s : Store) : List String → Except String (List ComposeRow)
  | [] => Except.ok []
  | pid :: rest =>
    match s.composes.find? (fun r => r.id == pid) with
    | none =>
      Except.error ("Cannot find parent compose with id " ++ pid ++ ".")
    | some row =>
      match resolveParents s rest with
      | Except.error e => Except.error e
      | Except.ok rows => Except.ok (row :: rows)

/-- Respin-of resolution (models.py 594-601). -/
def resolveRespinOf (s : Store) : Option String →
    Except String (Option ComposeRow)
  | none => Except.ok none
  | some rid =>
    match s.composes.find? (fun r => r.id == rid) with
    | none =>
      Except.error ("Cannot find respin_of compose with id " ++ rid ++ ".")
    | some row => Except.ok (some row)

/-- Replace the freshly inserted row with its version carrying the parent
links and the `respin_of` link (the `compose.parents.append` /
`compose.respin_of = ...` block followed by `session.commit()`,
models.py 651-657). -/
def attachLinks (s : Store) (cid : String) (parentIds : List String)
    (respinOfId : Option String) : Store :=
  { s with composes := s.composes.map (fun r =>
      if r.id == cid then
        { r with parents := parentIds, respinOfId := respinOfId }
      else r) }

/-- Full `Compose.create` (models.py 556-662): resolve parents and
respin-of first (failing fast leaves the store untouched), run the
allocator loop, attach the links and append the `created` audit row.  The
result pairs the final store with either an error or the created row plus
the final metadata; `none` again means the allocator loop ran out of
fuel. -/
def Compose.create (s : Store) (builder : String) (ci : CI)
    (userData : Option String) (parentComposeIds : List String)
    (respinOf : Option String) (composeUrl : Option String) (now : Nat)
    (fuel : Nat) : Option (Store × Except String (ComposeRow × CI)) :=
  match resolveParents s parentComposeIds with
  | Except.error e => some (s, Except.error e)
  | Except.ok parentComposes =>
    match resolveRespinOf s respinOf with
    | Except.error e => some (s, Except.error e)
    | Except.ok respinOfCompose =>
      match createLoop builder composeUrl s ci fuel with
      | none => none
      | some (Except.error e) => some (s, Except.error e)
      | some (Except.ok (s', row, ci')) =>
        let s'' := attachLinks s' row.id (parentComposes.map (fun p => p.id))
          (respinOfCompose.map (fun p => p.id))
        let row' := { row with
          parents := parentComposes.map (fun p => p.id)
          respinOfId := respinOfCompose.map (fun p => p.id) }
        let chg : ComposeChangeRow :=
          { time := now, composeId := row.id, action := "created"
            user := builder, message := none, userData := userData }
        some ({ s'' with changes := s''.changes ++ [chg] },
          Except.ok (row', ci'))

/-- Run `n` `Compose.create` calls in sequence, each with the same fresh
metadata `ci` (how repeated identical create-compose requests reach the
allocator), collecting the created rows in order. -/
def runCreateSeq (builder : String) (ci : CI) (userData : Option String)
    (parentComposeIds : List String) (respinOf : Option String)
    (composeUrl : Option String) (now : Nat) (fuel : Nat) :
    Store → Nat → Option (Store × List ComposeRow)
  | s, 0 => some (s, [])
  | s, n + 1 =>
    match Compose.create s builder ci userData parentComposeIds respinOf
        composeUrl now fuel with
    | some (s', Except.ok (row, _)) =>
      match runCreateSeq builder ci userData parentComposeIds respinOf
          composeUrl now fuel s' n with
      | some (s'', rows) => some (s'', row :: rows)
      | none => none
    | _ => none

/-- The rows created by a sequence of identical create-compose calls
(empty when the sequence did not complete successfully). -/
def createdRows (builder : String) (ci : CI) (userData : Option String)
    (parentComposeIds : List String) (respinOf : Option String)
    (composeUrl : Option String) (now : Nat) (fuel : Nat) (s : Store)
    (n : Nat) : List ComposeRow :=
  match runCreateSeq builder ci userData parentComposeIds respinOf
      composeUrl now fuel s n with
  | some (_, rows) => rows
  | none => []

/-! ## Tags, permission grants and their audit trail
(models.py 175-451)

The grant/revoke methods interleave mutations with `session.commit()` calls
(`TagChange.create` issues its own commit), so the session is modelled
explicitly: `pending` is what the open transaction sees, `committed` is the
durable state, and `commits` logs every committed snapshot in order. -/

/-- Row of the `tag_changes` table. -/
structure TagChangeRow where
  time : Nat
  tagId : Nat
  action : String
  user : String
  message : Option String
  userData : Option String
deriving DecidableEq, Repr

/-- One `Tag` row together with its association rows: `taggers` /
`untaggers` (user grants, stored by username), `tagger_groups` /
`untagger_groups`, and its `tag_changes`. -/
structure TagState where
  id : Nat
  name : String
  description : String
  documentation : String
  taggers : List String
  untaggers : List String
  taggerGroups : List String
  untaggerGroups : List String
  changes : List TagChangeRow
deriving DecidableEq, Repr

/-- The database state a grant/revoke operation touches: the `users` table
(by username) and the tag being edited. -/
structure TagDb where
  users : List String
  tag : TagState
deriving DecidableEq, Repr

/-- Boolean no-duplicates test on a list of strings. -/
def nodupB : List String → Bool
  | [] => true
  | x :: xs => !xs.contains x && nodupB xs

/-- The unique constraints a flush of the grant tables enforces:
`users.username` is unique (models.py 83), `unique_taggers` /
`unique_untaggers` make a (user, tag) grant row unique (models.py 141-154),
and the `tagger_groups` / `untagger_groups` primary keys make a
(group, tag) row unique (models.py 157-172).  A commit whose staged rows
would duplicate one of these raises `IntegrityError`. -/
def TagDb.unique_ok (db : TagDb) : Bool :=
  nodupB db.users && nodupB db.tag.taggers && nodupB db.tag.untaggers &&
    nodupB db.tag.taggerGroups && nodupB db.tag.untaggerGroups

/-- An open SQLAlchemy session over a `TagDb`: queries see `pending`
(autoflush), `commits` records each committed snapshot chronologically. -/
structure Sess where
  committed : TagDb
  pending : TagDb
  commits : List TagDb
deriving DecidableEq, Repr

/-- Open a session on a committed database state. -/
def Sess.init (db : TagDb) : Sess :=
  { committed := db, pending := db, commits := [] }

/-- Model of `session.commit()`: the flush checks the unique constraints
of `TagDb.unique_ok`.  On success the pending state becomes durable and
is logged in `commits`; on a violation the commit raises `IntegrityError`
(the `false` result), the transaction is rolled back and nothing of it is
persisted. -/
def Sess.commit (s : Sess) : Sess × Bool :=
  if s.pending.unique_ok then
    ({ committed := s.pending, pending := s.pending
       commits := s.commits ++ [s.pending] }, true)
  else ({ s with pending := s.committed }, false)

/-- Model of `User.get_or_create` (models.py 104-116): a pending insert of
the username when it is not present. -/
def Sess.getOrCreateUser (s : Sess) (un : String) : Sess :=
  if s.pending.users.contains un then s
  else { s with pending := { s.pending with
    users := s.pending.users ++ [un] } }

/-- Model of `TagChange.create` (models.py 195-203): add the change row and
immediately `session.commit()` — the commit also flushes whatever else is
pending in the session, and its `IntegrityError` (the `false` result)
propagates to the caller. -/
def TagChange.create (s : Sess) (loggedUser action : String)
    (message : Option String) (userData : Option String) (now : Nat) :
    Sess × Bool :=
  let row : TagChangeRow :=
    { time := now, tagId := s.pending.tag.id, action := action
      user := loggedUser, message := message, userData := userData }
  Sess.commit { s with pending := { s.pending with
    tag := { s.pending.tag with
      changes := s.pending.tag.changes ++ [row] } } }

/-- Pending `self.taggers.append(u)`. -/
def Sess.appendTagger (s : Sess) (un : String) : Sess :=
  { s with pending := { s.pending with tag := { s.pending.tag with
    taggers := s.pending.tag.taggers ++ [un] } } }

/-- Pending `self.untaggers.append(u)`. -/
def Sess.appendUntagger (s : Sess) (un : String) : Sess :=
  { s with pending := { s.pending with tag := { s.pending.tag with
    untaggers := s.pending.tag.untaggers ++ [un] } } }

/-- Pending `self.tagger_groups.append(TaggerGroups(group=group))`. -/
def Sess.appendTaggerGroup (s : Sess) (g : String) : Sess :=
  { s with pending := { s.pending with tag := { s.pending.tag with
    taggerGroups := s.pending.tag.taggerGroups ++ [g] } } }

/-- Pending `self.untagger_groups.append(UntaggerGroups(group=group))`. -/
def Sess.appendUntaggerGroup (s : Sess) (g : String) : Sess :=
  { s with pending := { s.pending with tag := { s.pending.tag with
    untaggerGroups := s.pending.tag.untaggerGroups ++ [g] } } }

/-- Pending `self.taggers.remove(u)` (removes the first occurrence). -/
def Sess.removeTagger (s : Sess) (un : String) : Sess :=
  { s with pending := { s.pending with tag := { s.pending.tag with
    taggers := s.pending.tag.taggers.erase un } } }

/-- Pending `self.untaggers.remove(u)`. -/
def Sess.removeUntagger (s : Sess) (un : String) : Sess :=
  { s with pending := { s.pending with tag := { s.pending.tag with
    untaggers := s.pending.tag.untaggers.erase un } } }

/-- Pending `self.tagger_groups.remove(tg)`. -/
def Sess.removeTaggerGroup (s : Sess) (g : String) : Sess :=
  { s with pending := { s.pending with tag := { s.pending.tag with
    taggerGroups := s.pending.tag.taggerGroups.erase g } } }

/-- Pending `self.untagger_groups.remove(tg)`. -/
def Sess.removeUntaggerGroup (s : Sess) (g : String) : Sess :=
  { s with pending := { s.pending with tag := { s.pending.tag with
    untaggerGroups := s.pending.tag.untaggerGroups.erase g } } }

/-- Model of `Tag.add_tagger` (models.py 258-297).  The username branch
unconditionally creates a `TagChange` row (whose own commit persists the
audit row) and then appends the user to `taggers`; the group branch first
checks for an existing grant and returns early when it is already held.
An `IntegrityError` raised by a commit inside the method (the
`Except.error` result) propagates out of it; the staged duplicate tagger
row itself only fails at the caller's outer commit. -/
def Tag.add_tagger (sess : Sess) (loggedUser : String)
    (username group userData : Option String) (now : Nat) :
    Sess × Except String Bool :=
  let step1 : Sess × Bool :=
    match username with
    | none => (sess, true)
    | some un =>
      let s := sess.getOrCreateUser un
      match TagChange.create s loggedUser "add_tagger"
        (some ("Tagger permission granted to user \"" ++ un ++ "\"."))
        userData now with
      | (s, true) => (s.appendTagger un, true)
      | (s, false) => (s, false)
  match step1 with
  | (s, false) => (s, Except.error "IntegrityError")
  | (sess1, true) =>
    match group with
    | none => (sess1, Except.ok true)
    | some g =>
      if sess1.pending.tag.taggerGroups.contains g then
        (sess1, Except.ok true)
      else
        match TagChange.create sess1 loggedUser "add_tagger"
          (some ("Tagger permission granted to group \"" ++ g ++ "\"."))
          userData now with
        | (s, true) => (s.appendTaggerGroup g, Except.ok true)
        | (s, false) => (s, Except.error "IntegrityError")

/-- The `if group:` half of `Tag.remove_tagger` (models.py 329-346). -/
def Tag.removeTaggerGroupPart (sess : Sess) (loggedUser : String)
    (group userData : Option String) (now : Nat) :
    Sess × Except String Bool :=
  match group with
  | none => (sess, Except.ok true)
  | some g =>
    if sess.pending.tag.taggerGroups.contains g then
      let s := sess.removeTaggerGroup g
      match TagChange.create s loggedUser "remove_tagger"
        (some ("Tagger permission removed from group \"" ++ g ++ "\"."))
        userData now with
      | (s, true) => (s, Except.ok true)
      | (s, false) => (s, Except.error "IntegrityError")
    else (sess, Except.ok true)

/-- Model of `Tag.remove_tagger` (models.py 299-346).  The username branch
returns `False` when the user row does not exist, returns `True` without
any change when the user is not a tagger (`ValueError` branch), and
otherwise removes the grant and creates the audit row in one commit. -/
def Tag.remove_tagger (sess : Sess) (loggedUser : String)
    (username group userData : Option String) (now : Nat) :
    Sess × Except String Bool :=
  match username with
  | none => Tag.removeTaggerGroupPart sess loggedUser group userData now
  | some un =>
    if sess.pending.users.contains un then
      if sess.pending.tag.taggers.contains un then
        let s := sess.removeTagger un
        match TagChange.create s loggedUser "remove_tagger"
          (some ("Tagger permission removed from user \"" ++ un ++ "\"."))
          userData now with
        | (s, true) =>
          Tag.removeTaggerGroupPart s loggedUser group userData now
        | (s, false) => (s, Except.error "IntegrityError")
      else (sess, Except.ok true)
    else (sess, Except.ok false)

/-- Model of `Tag.add_untagger` (models.py 348-389), mirror of
`add_tagger`. -/
def Tag.add_untagger (sess : Sess) (loggedUser : String)
    (username group userData : Option String) (now : Nat) :
    Sess × Except String Bool :=
  let step1 : Sess × Bool :=
    match username with
    | none => (sess, true)
    | some un =>
      let s := sess.getOrCreateUser un
      match TagChange.create s loggedUser "add_untagger"
        (some ("Untagger permission granted to user \"" ++ un ++ "\"."))
        userData now with
      | (s, true) => (s.appendUntagger un, true)
      | (s, false) => (s, false)
  match step1 with
  | (s, false) => (s, Except.error "IntegrityError")
  | (sess1, true) =>
    match group with
    | none => (sess1, Except.ok true)
    | some g =>
      if sess1.pending.tag.untaggerGroups.contains g then
        (sess1, Except.ok true)
      else
        match TagChange.create sess1 loggedUser "add_untagger"
          (some ("Untagger permission granted to group \"" ++ g ++ "\"."))
          userData now with
        | (s, true) => (s.appendUntaggerGroup g, Except.ok true)
        | (s, false) => (s, Except.error "IntegrityError")

/-- The `if group:` half of `Tag.remove_untagger` (models.py 421-437). -/
def Tag.removeUntaggerGroupPart (sess : Sess) (loggedUser : String)
    (group userData : Option String) (now : Nat) :
    Sess × Except String Bool :=
  match group with
  | none => (sess, Except.ok true)
  | some g =>
    if sess.pending.tag.untaggerGroups.contains g then
      let s := sess.removeUntaggerGroup g
      match TagChange.create s loggedUser "remove_untagger"
        (some ("Untagger permission removed from group \"" ++ g ++ "\"."))
        userData now with
      | (s, true) => (s, Except.ok true)
      | (s, false) => (s, Except.error "IntegrityError")
    else (sess, Except.ok true)

/-- Model of `Tag.remove_untagger` (models.py 391-438), mirror of
`remove_tagger`. -/
def Tag.remove_untagger (sess : Sess) (loggedUser : String)
    (username group userData : Option String) (now : Nat) :
    Sess × Except String Bool :=
  match username with
  | none => Tag.removeUntaggerGroupPart sess loggedUser group userData now
  | some un =>
    if sess.pending.users.contains un then
      if sess.pending.tag.untaggers.contains un then
        let s := sess.removeUntagger un
        match TagChange.create s loggedUser "remove_untagger"
          (some ("Untagger permission removed from user \"" ++ un ++ "\"."))
          userData now with
        | (s, true) =>
          Tag.removeUntaggerGroupPart s loggedUser group userData now
        | (s, false) => (s, Except.error "IntegrityError")
      else (sess, Except.ok true)
    else (sess, Except.ok false)

/-- Run a grant/revoke operation the way the web layer does
(views.py 895-923): open a session on `db` and run `op`.  An
`IntegrityError` escaping the operation propagates; a `False` result
raises `ValueError` before the outer commit is reached; otherwise the
handler issues the final `db.session.commit()` inside
`try/except IntegrityError`, so a staged duplicate grant makes the
request fail with nothing from that commit persisted.  Returns the final
committed database, the outcome and the chronological list of committed
snapshots. -/
def runGrantOp (op : Sess → Sess × Except String Bool) (db : TagDb) :
    TagDb × Except String Bool × List TagDb :=
  let (s, r) := op (Sess.init db)
  match r with
  | Except.error e => (s.committed, Except.error e, s.commits)
  | Except.ok b =>
    if b then
      match s.commit with
      | (s', true) => (s'.committed, Except.ok true, s'.commits)
      | (s', false) =>
        (s'.committed, Except.error "IntegrityError", s'.commits)
    else (s.committed, Except.ok false, s.commits)

/-! ## Compose tagging (models.py 693-782)

`Compose.tag` / `Compose.untag` do not commit themselves; they mutate the
compose's `tags` relationship and `changes` list and leave the commit to
the caller, so they are plain state transformers on the compose. -/

/-- The per-compose state `tag`/`untag`/`retag_stale_composes` touch: the
applied tags (by unique tag name, mirroring the `tags_to_composes` rows)
and the compose's `compose_changes` rows. -/
structure CState where
  id : String
  tags : List String
  changes : List ComposeChangeRow
deriving DecidableEq, Repr

/-- Model of `Tag.get_by_name` (models.py 246-256) against the global
`tags` table. -/
def Tag.get_by_name (tagsTable : List TagState) (tagName : String) :
    Option TagState :=
  tagsTable.find? (fun t => t.name == tagName)

/-- Model of `Compose.tag` (models.py 693-721). -/
def Compose.tag (tagsTable : List TagState) (c : CState)
    (loggedUser tagName : String) (userData : Option String) (now : Nat) :
    CState × Bool :=
  match Tag.get_by_name tagsTable tagName with
  | none => (c, false)
  | some t =>
    if c.tags.contains t.name then (c, true)
    else
      let chg : ComposeChangeRow :=
        { time := now, composeId := c.id, action := "tagged"
          user := loggedUser, userData := userData
          message := some ("User \"" ++ loggedUser ++ "\" added \""
            ++ tagName ++ "\" tag.") }
      ({ c with changes := c.changes ++ [chg], tags := c.tags ++ [t.name] },
        true)

/-- Model of `Compose.untag` (models.py 723-751). -/
def Compose.untag (tagsTable : List TagState) (c : CState)
    (loggedUser tagName : String) (userData : Option String) (now : Nat) :
    CState × Bool :=
  match Tag.get_by_name tagsTable tagName with
  | none => (c, false)
  | some t =>
    if c.tags.contains t.name then
      let chg : ComposeChangeRow :=
        { time := now, composeId := c.id, action := "untagged"
          user := loggedUser, userData := userData
          message := some ("User \"" ++ loggedUser ++ "\" removed \""
            ++ tagName ++ "\" tag.") }
      ({ c with changes := c.changes ++ [chg], tags := c.tags.erase t.name },
        true)
    else (c, true)

/-- The filter of the most-recent-change query in `retag_stale_composes`
(models.py 765-773): `compose_id` matches, action is `"tagged"` and the
message contains the tag name in double quotes (SQL `contains` on a null
message is not a match). -/
def matchesTaggedQuery (cid tagName : String) (ch : ComposeChangeRow) :
    Bool :=
  ch.composeId == cid && ch.action == "tagged" &&
    (match ch.message with
     | some m => strHasSub m ("\"" ++ tagName ++ "\"")
     | none => false)

/-- The `order_by(ComposeChange.time.desc()).first()` step: the matching
row with the greatest timestamp, `none` when nothing matches. -/
def latestMatch (cid tagName : String) :
    List ComposeChangeRow → Option ComposeChangeRow
  | [] => none
  | ch :: rest =>
    match latestMatch cid tagName rest with
    | none => if matchesTaggedQuery cid tagName ch then some ch else none
    | some best =>
      if matchesTaggedQuery cid tagName ch && ch.time ≥ best.time then
        some ch
      else some best

/-- The message of the `AttributeError` raised when the query of
`retag_stale_composes` finds no row and the code dereferences
`last_change.time` on `None` (models.py 774). -/
def noneTimeCrashMsg : String :=
  "AttributeError: NoneType object has no attribute time"

/-- The loop body of `Compose.retag_stale_composes` running over the
snapshot `self.tags[:]` of the tag-name list.  Returns the final compose
state and the names the generator yielded, or the crash. -/
def retagGo (tagsTable : List TagState) (loggedUser : String)
    (timeout : Nat) (userData : Option String) (now : Nat) :
    List String → CState → Except String (CState × List String)
  | [], c => Except.ok (c, [])
  | tn :: rest, c =>
    if strHasSub tn "requested" then
      match latestMatch c.id tn c.changes with
      | none => Except.error noneTimeCrashMsg
      | some lastChange =>
        let c' :=
          if now - lastChange.time > timeout then
            let c1 := (Compose.untag tagsTable c loggedUser tn userData
              now).1
            (Compose.tag tagsTable c1 loggedUser tn userData now).1
          else c
        match retagGo tagsTable loggedUser timeout userData now rest c' with
        | Except.error e => Except.error e
        | Except.ok (cF, names) => Except.ok (cF, tn :: names)
    else retagGo tagsTable loggedUser timeout userData now rest c

/-- Model of `Compose.retag_stale_composes` (models.py 753-782), with the
generator fully consumed. -/
def Compose.retag_stale_composes (tagsTable : List TagState) (c : CState)
    (loggedUser : String) (timeout : Nat) (userData : Option String)
    (now : Nat) : Except String (CState × List String) :=
  retagGo tagsTable loggedUser timeout userData now c.tags c

/-! ## The change detector (events.py 39-89) -/

/-- The SQLAlchemy attribute history of one touched compose, as read by
`cache_composes_if_state_changed`: whether `get_history(comp, "id")` has an
`unchanged` entry (false means the row is brand new), the names of the tags
added and deleted in this flush, and the `user_data` of the change rows
added in this flush. -/
structure AttrHistory where
  idUnchanged : Bool
  tagsAdded : List String
  tagsDeleted : List String
  changesAddedUserData : List (Option String)
deriving DecidableEq, Repr

/-- A compose in `session.new | session.dirty` at flush time. -/
structure TouchedCompose where
  id : String
  hist : AttrHistory
deriving DecidableEq, Repr

/-- One staged outbound message (`msg` in events.py 72-85; the full
`comp.json()` snapshot is represented by the compose id). -/
structure EventMsg where
  event : String
  composeId : String
  tag : Option String
  userData : Option String
  agent : Option String
deriving DecidableEq, Repr

/-- The event-classification chain of `cache_composes_if_state_changed`
(events.py 51-68), first match wins.  In the tagged/untagged branches the
source indexes `added[0]` / `deleted[0]` unguarded; those lists are
nonempty exactly in their branches, and `changes.added[0]` is read through
`head?` here. -/
def eventFor (agent : Option String) (c : TouchedCompose) : EventMsg :=
  if !c.hist.idUnchanged then
    { event := "compose-created", composeId := c.id, tag := none
      userData := none, agent := agent }
  else if !c.hist.tagsAdded.isEmpty then
    { event := "compose-tagged", composeId := c.id
      tag := c.hist.tagsAdded.head?
      userData := (c.hist.changesAddedUserData.head?).getD none
      agent := agent }
  else if !c.hist.tagsDeleted.isEmpty then
    { event := "compose-untagged", composeId := c.id
      tag := c.hist.tagsDeleted.head?
      userData := (c.hist.changesAddedUserData.head?).getD none
      agent := agent }
  else
    { event := "compose-changed", composeId := c.id, tag := none
      userData := none, agent := agent }

/-- The process-wide `_cached_composes` dictionary: staged messages keyed
by compose id. -/
abbrev Buffer := List (String × List EventMsg)

/-- Append one staged message under its compose id (`_cached_composes
[comp.id].append(msg)`, with the empty-list initialisation at
events.py 70-71). -/
def stageMsg (buf : Buffer) (cid : String) (msg : EventMsg) : Buffer :=
  if (List.find? (fun kv => kv.1 == cid) buf).isSome then
    List.map (fun kv => if kv.1 == cid then (kv.1, kv.2 ++ [msg]) else kv)
      buf
  else buf ++ [(cid, [msg])]

/-- Model of `cache_composes_if_state_changed` (events.py 39-89): stage one
classified message per touched compose. -/
def cache_composes_if_state_changed (agent : Option String)
    (touched : List TouchedCompose) (buf : Buffer) : Buffer :=
  touched.foldl (fun b c => stageMsg b c.id (eventFor agent c)) buf

/-- Total number of staged messages in the buffer. -/
def bufferSize (buf : Buffer) : Nat :=
  (List.map (fun kv => kv.2.length) buf).sum

/-- Model of `start_to_publish_messages` (events.py 92-106): drain every
staged message, attempt publication when there is anything to send,
swallow a publication failure (recording it as the logged exception), and
clear the buffer unconditionally. -/
def start_to_publish_messages {ε : Type} (publish : List EventMsg →
    Except ε Unit) (buf : Buffer) : Buffer × Option ε :=
  let msgs := List.foldl (fun acc kv => acc ++ kv.2) ([] : List EventMsg)
    buf
  let logged :=
    if msgs.isEmpty then none
    else
      match publish msgs with
      | Except.ok _ => none
      | Except.error e => some e
  (([] : List (String × List EventMsg)), logged)

/-! ## The messaging retry wrapper (messaging.py 58-92) -/

/-- Default of `max_retries` in `_retry_with_backoff`. -/
def defaultMaxRetries : Nat := 3

/-- Default of `initial_delay` in `_retry_with_backoff` (seconds). -/
def defaultInitialDelay : ℚ := 1

/-- Default of `backoff_multiplier` in `_retry_with_backoff`. -/
def defaultBackoffMultiplier : ℚ := 2

/-- The `for attempt in range(max_retries + 1)` loop of
`_retry_with_backoff`.  `f i` is the outcome of the `func()` call on
attempt `i`; the first component of the result is the returned value or
the re-raised last exception, the second counts the calls of `func`, the
third lists the `time.sleep` durations in order.  The first argument is
the number of retries still allowed after the current attempt. -/
def retryGo {ε α : Type} (f : Nat → Except ε α) (mult : ℚ) :
    Nat → Nat → ℚ → Except ε α × Nat × List ℚ
  | 0, attempt, _ =>
    match f attempt with
    | Except.ok a => (Except.ok a, 1, [])
    | Except.error e => (Except.error e, 1, [])
  | n + 1, attempt, delay =>
    match f attempt with
    | Except.ok a => (Except.ok a, 1, [])
    | Except.error _ =>
      let r := retryGo f mult n (attempt + 1) (delay * mult)
      (r.1, r.2.1 + 1, delay :: r.2.2)

/-- Model of `_retry_with_backoff` (messaging.py 58-92). -/
def retryWithBackoff {ε α : Type} (f : Nat → Except ε α) (maxRetries : Nat)
    (initialDelay backoffMultiplier : ℚ) : Except ε α × Nat × List ℚ :=
  retryGo f backoffMultiplier maxRetries 0 initialDelay

/-- Sample tag table used by the witnesses: tags `periodic` and `extra`. -/
def wTags : List TagState :=
  [{ id := 1, name := "periodic", description := "d"
     documentation := "u", taggers := [], untaggers := []
     taggerGroups := [], untaggerGroups := [], changes := [] },
   { id := 2, name := "extra", description := "d"
     documentation := "u", taggers := [], untaggers := []
     taggerGroups := [], untaggerGroups := [], changes := [] }]

/-- Sample compose carrying the `periodic` tag. -/
def wCompose : CState := { id := "C-1", tags := ["periodic"], changes := [] }

/-- The first sample tag. -/
def wPeriodic : TagState :=
  { id := 1, name := "periodic", description := "d"
    documentation := "u", taggers := [], untaggers := []
    taggerGroups := [], untaggerGroups := [], changes := [] }

/-- The second sample tag. -/
def wExtra : TagState :=
  { id := 2, name := "extra", description := "d"
    documentation := "u", taggers := [], untaggers := []
    taggerGroups := [], untaggerGroups := [], changes := [] }

/-- Predicate: inserting a compose built from `ci` at respin `r` into
store `s` would hit the unique constraint on `id` or on
`release_date_respin` (the condition under which the allocator loop keeps
retrying). -/
def usedRespin (s : Store) (ci : CI) (r : Nat) : Bool :=
  s.composes.any (fun row =>
    conflictsWith row ((ci.setRespin r).createComposeId)
      ((ci.setRespin r).releaseDateRespin))

/-- Sample database for the grant-idempotence analysis: user `alice`
already holds the tagger permission for `periodic` and the grant is
already audited. -/
def c5db : TagDb :=
  { users := ["root", "alice"]
    tag := { id := 7, name := "periodic", description := "d"
             documentation := "u", taggers := ["alice"], untaggers := []
             taggerGroups := [], untaggerGroups := []
             changes := [{ time := 1, tagId := 7, action := "add_tagger"
                           user := "root"
                           message := some
                             "Tagger permission granted to user \"alice\"."
                           userData := none }] } }

/-- Sample metadata record for the allocator witnesses. -/
def wCI : CI :=
  { composeId := "", releaseShort := "Fedora", releaseVersion := "Rawhide"
    releaseName := "Fedora", date := "20200517", respin := 1
    composeType := "nightly", label := none, final := false
    releaseIsLayered := false, releaseType := none
    releaseInternal := false, baseProductName := none
    baseProductShort := none, baseProductVersion := none
    baseProductType := none }

/-- Sample database for the audit-atomicity analysis: no permission held
yet. -/
def c6db : TagDb :=
  { users := ["root"]
    tag := { id := 9, name := "periodic", description := "d"
             documentation := "u", taggers := [], untaggers := []
             taggerGroups := [], untaggerGroups := [], changes := [] } }

/-- Sample touched-compose histories for the change-detector witness. -/
def hNew : TouchedCompose :=
  { id := "N"
    hist := { idUnchanged := false, tagsAdded := []
              tagsDeleted := [], changesAddedUserData := [] } }

/-- History of a compose whose flush added two tags. -/
def hTagged : TouchedCompose :=
  { id := "T"
    hist := { idUnchanged := true
              tagsAdded := ["periodic", "extra"], tagsDeleted := []
              changesAddedUserData := [some "u"] } }

/-- History of a compose whose flush removed one tag. -/
def hUntagged : TouchedCompose :=
  { id := "U"
    hist := { idUnchanged := true, tagsAdded := []
              tagsDeleted := ["periodic"], changesAddedUserData := [] } }

/-- History of a compose with a non-tag change. -/
def hChanged : TouchedCompose :=
  { id := "C"
    hist := { idUnchanged := true, tagsAdded := []
              tagsDeleted := [], changesAddedUserData := [] } }

/-! ## Helper lemmas -/

theorem retryGo_ok_after {ε α : Type} (f : Nat → Except ε α) (mult : ℚ)
    (a : α) :
    ∀ (n remaining attempt : Nat) (delay : ℚ),
    (∀ i, i < n → ∃ e, f (attempt + i) = Except.error e) →
    f (attempt + n) = Except.ok a → n ≤ remaining →
    retryGo f mult remaining attempt delay =
      (Except.ok a, n + 1,
        (List.range n).map (fun i => delay * mult ^ i)) := by
  intro n
  induction n with
  | zero =>
    intro remaining attempt delay _ hok _
    cases remaining with
    | zero => simp only [retryGo]; rw [Nat.add_zero] at hok; rw [hok]; simp
    | succ r => simp only [retryGo]; rw [Nat.add_zero] at hok; rw [hok]; simp
  | succ n ih =>
    intro remaining attempt delay herr hok hle
    cases remaining with
    | zero => omega
    | succ r =>
      obtain ⟨e0, he0⟩ := herr 0 (Nat.succ_pos n)
      rw [Nat.add_zero] at he0
      simp only [retryGo, he0]
      have hrec := ih r (attempt + 1) (delay * mult)
        (fun i hi => by
          obtain ⟨e, he⟩ := herr (i + 1) (Nat.succ_lt_succ hi)
          exact ⟨e, by rw [← he]; congr 1; omega⟩)
        (by rw [← hok]; congr 1; omega)
        (Nat.le_of_succ_le_succ hle)
      rw [hrec]
      refine Prod.ext rfl (Prod.ext rfl ?_)
      simp only [List.range_succ_eq_map, List.map_cons, List.map_map,
        pow_zero, mul_one, List.cons.injEq, true_and]
      refine List.map_congr_left (fun i _ => ?_)
      simp only [Function.comp_apply, pow_succ]
      ring

theorem retryGo_all_fail {ε α : Type} (f : Nat → Except ε α) (mult : ℚ)
    (e : ε) :
    ∀ (remaining attempt : Nat) (delay : ℚ),
    (∀ i, i < remaining → ∃ e', f (attempt + i) = Except.error e') →
    f (attempt + remaining) = Except.error e →
    retryGo f mult remaining attempt delay =
      (Except.error e, remaining + 1,
        (List.range remaining).map (fun i => delay * mult ^ i)) := by
  intro remaining
  induction remaining with
  | zero =>
    intro attempt delay _ hlast
    simp only [retryGo]; rw [Nat.add_zero] at hlast; rw [hlast]; simp
  | succ r ih =>
    intro attempt delay herr hlast
    obtain ⟨e0, he0⟩ := herr 0 (Nat.succ_pos r)
    rw [Nat.add_zero] at he0
    simp only [retryGo, he0]
    have hrec := ih (attempt + 1) (delay * mult)
      (fun i hi => by
        obtain ⟨e', he'⟩ := herr (i + 1) (Nat.succ_lt_succ hi)
        exact ⟨e', by rw [← he']; congr 1; omega⟩)
      (by rw [← hlast]; congr 1; omega)
    rw [hrec]
    refine Prod.ext rfl (Prod.ext rfl ?_)
    simp only [List.range_succ_eq_map, List.map_cons, List.map_map,
      pow_zero, mul_one, List.cons.injEq, true_and]
    refine List.map_congr_left (fun i _ => ?_)
    simp only [Function.comp_apply, pow_succ]
    ring

theorem backoff_delays_strict_chain (d m : ℚ) (hd : 0 < d) (hm : 1 < m) :
    ∀ n : Nat, List.Chain' (fun x y => x < y)
      ((List.range n).map (fun i => d * m ^ i)) := by
  intro n
  rw [List.chain'_map]
  cases n with
  | zero => simp
  | succ k =>
    rw [List.chain'_range_succ]
    intro i _
    have hpow : m ^ i < m ^ (i + 1) := by
      have h0 : (0 : ℚ) < m ^ i := pow_pos (lt_trans one_pos hm) i
      calc m ^ i = m ^ i * 1 := (mul_one _).symm
        _ < m ^ i * m := by exact mul_lt_mul_of_pos_left hm h0
        _ = m ^ (i + 1) := (pow_succ m i).symm
    exact mul_lt_mul_of_pos_left hpow hd

/-! ## Claim theorems -/

/-- C9: the retry wrapper with parameters (max_retries, initial_delay,
backoff_multiplier): for an operation failing on its first `n` calls and
then succeeding, with `n ≤ max_retries`, it invokes the operation exactly
`n + 1` times, sleeps exactly `n` times with strictly increasing delays
`initial_delay * backoff_multiplier ^ i`, and returns the success value;
for an operation that always fails it invokes it exactly `max_retries + 1`
times and raises the last exception; the defaults are `max_retries = 3`,
`initial_delay = 1` second and `multiplier = 2`. -/
theorem retry_with_backoff_spec {ε α : Type} (f : Nat → Except ε α)
    (maxRetries : Nat) (initialDelay mult : ℚ) :
    (∀ (n : Nat) (a : α), (∀ i, i < n → ∃ e, f i = Except.error e) →
      f n = Except.ok a → n ≤ maxRetries →
      retryWithBackoff f maxRetries initialDelay mult =
        (Except.ok a, n + 1,
          (List.range n).map (fun i => initialDelay * mult ^ i)) ∧
      (0 < initialDelay → 1 < mult →
        List.Chain' (fun x y => x < y)
          (retryWithBackoff f maxRetries initialDelay mult).2.2)) ∧
    (∀ e : ε, (∀ i, i < maxRetries → ∃ e', f i = Except.error e') →
      f maxRetries = Except.error e →
      retryWithBackoff f maxRetries initialDelay mult =
        (Except.error e, maxRetries + 1,
          (List.range maxRetries).map
            (fun i => initialDelay * mult ^ i))) ∧
    defaultMaxRetries = 3 ∧ defaultInitialDelay = 1 ∧
      defaultBackoffMultiplier = 2 := by
  refine ⟨?_, ?_, rfl, rfl, rfl⟩
  · intro n a herr hok hle
    have h := retryGo_ok_after f mult a n maxRetries 0 initialDelay
      (fun i hi => by simpa using herr i hi) (by simpa using hok) hle
    refine ⟨h, fun hd hm => ?_⟩
    rw [retryWithBackoff, h]
    exact backoff_delays_strict_chain initialDelay mult hd hm n
  · intro e herr hlast
    exact retryGo_all_fail f mult e maxRetries 0 initialDelay
      (fun i hi => by simpa using herr i hi) (by simpa using hlast)

/-- Witness for C9: a send that fails twice and then succeeds makes 3
calls and sleeps twice, 1 s then 2 s; a send that always fails with the
defaults makes 4 calls and the error surfaces. -/
theorem retry_with_backoff_spec_witness :
    retryWithBackoff
        (fun i => if i < 2 then Except.error "down" else Except.ok i)
        3 1 2 = (Except.ok 2, 3, [1, 2]) ∧
      List.Chain' (fun x y => x < y)
        (retryWithBackoff
          (fun i => if i < 2 then Except.error "down" else Except.ok i)
          3 1 2).2.2 ∧
      retryWithBackoff (fun _ => (Except.error "down" : Except String Nat))
        3 1 2 = (Except.error "down", 4, [1, 2, 4]) := by
  have h := retry_with_backoff_spec
    (fun i => if i < 2 then Except.error "down" else Except.ok i) 3 1 2
  have h2 := retry_with_backoff_spec
    (fun _ => (Except.error "down" : Except String Nat)) 3 1 2
  obtain ⟨hok, _, _⟩ := h
  obtain ⟨_, hfail, _⟩ := h2
  have ha := hok 2 2
    (fun i hi => ⟨"down", by interval_cases i <;> rfl⟩) (by rfl)
    (by norm_num)
  refine ⟨?_, ?_, ?_⟩
  · rw [ha.1]; norm_num [List.range_succ]
  · exact ha.2 (by norm_num) (by norm_num)
  · have hb := hfail "down" (fun i _ => ⟨"down", rfl⟩) rfl
    rw [hb]; norm_num [List.range_succ]

/-- C8: after the post-commit publish step runs the staged-event buffer is
empty regardless of whether publication succeeded or raised, and an
exception from the publish call is caught (returned as the logged error)
rather than propagated, so no staged event is replayed later. -/
theorem publish_clears_buffer_and_swallows {ε : Type}
    (publish : List EventMsg → Except ε Unit) (buf : Buffer) :
    (start_to_publish_messages publish buf).1 = [] ∧
    (∀ e, publish (List.foldl (fun acc kv => acc ++ kv.2)
        ([] : List EventMsg) buf) = Except.error e →
      (List.foldl (fun acc kv => acc ++ kv.2) ([] : List EventMsg)
        buf).isEmpty = false →
      start_to_publish_messages publish buf = ([], some e)) := by
  constructor
  · rfl
  · intro e he hne
    simp only [start_to_publish_messages, hne, Bool.false_eq_true,
      if_false, he]

/-- Witness for C8: a concrete one-message buffer whose publication fails:
the call returns normally with the error logged and the buffer cleared. -/
theorem publish_clears_buffer_and_swallows_witness :
    start_to_publish_messages
        (fun _ => (Except.error "bus down" : Except String Unit))
        [("c1", [{ event := "compose-created", composeId := "c1"
                   tag := none, userData := none, agent := none }])] =
      ([], some "bus down") :=
  (publish_clears_buffer_and_swallows
    (fun _ => (Except.error "bus down" : Except String Unit))
    [("c1", [{ event := "compose-created", composeId := "c1"
               tag := none, userData := none, agent := none }])]).2
    "bus down" (by rfl) (by rfl)

/-- C4: `tag` returns `False` and changes nothing when no tag of that name
exists; returns `True` and changes nothing when the tag is already applied;
otherwise adds exactly the tag relation plus exactly one `tagged`
ComposeChange row stamped with the acting user and annotation.  `untag` is
symmetric: `False` if the tag does not exist, no-op `True` if not applied,
otherwise removes the relation and appends exactly one `untagged` row. -/
theorem compose_tag_untag_spec (tagsTable : List TagState) (c : CState)
    (loggedUser tagName : String) (userData : Option String) (now : Nat) :
    (Tag.get_by_name tagsTable tagName = none →
      Compose.tag tagsTable c loggedUser tagName userData now = (c, false) ∧
      Compose.untag tagsTable c loggedUser tagName userData now =
        (c, false)) ∧
    (∀ t, Tag.get_by_name tagsTable tagName = some t →
      t.name ∈ c.tags →
      Compose.tag tagsTable c loggedUser tagName userData now = (c, true)) ∧
    (∀ t, Tag.get_by_name tagsTable tagName = some t →
      t.name ∉ c.tags →
      Compose.tag tagsTable c loggedUser tagName userData now =
        ({ c with
            changes := c.changes ++
              [{ time := now, composeId := c.id, action := "tagged"
                 user := loggedUser, userData := userData
                 message := some ("User \"" ++ loggedUser ++ "\" added \""
                   ++ tagName ++ "\" tag.") }]
            tags := c.tags ++ [t.name] }, true)) ∧
    (∀ t, Tag.get_by_name tagsTable tagName = some t →
      t.name ∉ c.tags →
      Compose.untag tagsTable c loggedUser tagName userData now =
        (c, true)) ∧
    (∀ t, Tag.get_by_name tagsTable tagName = some t →
      t.name ∈ c.tags →
      Compose.untag tagsTable c loggedUser tagName userData now =
        ({ c with
            changes := c.changes ++
              [{ time := now, composeId := c.id, action := "untagged"
                 user := loggedUser, userData := userData
                 message := some ("User \"" ++ loggedUser ++ "\" removed \""
                   ++ tagName ++ "\" tag.") }]
            tags := c.tags.erase t.name }, true)) := by
  refine ⟨fun hnone => ?_, fun t ht hmem => ?_, fun t ht hmem => ?_,
    fun t ht hmem => ?_, fun t ht hmem => ?_⟩
  · rw [Compose.tag, Compose.untag, hnone]
    exact ⟨rfl, rfl⟩
  · rw [Compose.tag, ht]
    simp only [List.elem_eq_true_of_mem hmem, if_true]
  · rw [Compose.tag, ht]
    have hc : c.tags.contains t.name = false := by
      cases h : c.tags.contains t.name with
      | false => rfl
      | true => exact absurd (List.mem_of_elem_eq_true h) hmem
    simp only [hc, Bool.false_eq_true, if_false]
  · rw [Compose.untag, ht]
    have hc : c.tags.contains t.name = false := by
      cases h : c.tags.contains t.name with
      | false => rfl
      | true => exact absurd (List.mem_of_elem_eq_true h) hmem
    simp only [hc, Bool.false_eq_true, if_false]
  · rw [Compose.untag, ht]
    simp only [List.elem_eq_true_of_mem hmem, if_true]

/-- Witness for C4: on a compose already carrying `periodic`, untagging the
nonexistent `nightly` fails, re-tagging `periodic` is a no-op, and tagging
the existing `extra` tag appends the relation and one `tagged` row. -/
theorem compose_tag_untag_spec_witness :
    Compose.untag wTags wCompose "alice" "nightly" none 3 =
      (wCompose, false) ∧
    Compose.tag wTags wCompose "alice" "periodic" none 3 =
      (wCompose, true) ∧
    Compose.tag wTags wCompose "alice" "extra" none 3 =
      ({ wCompose with
          changes := wCompose.changes ++
            [{ time := 3, composeId := wCompose.id, action := "tagged"
               user := "alice"
               userData := none
               message := some ("User \"" ++ "alice" ++ "\" added \""
                 ++ "extra" ++ "\" tag.") }]
          tags := wCompose.tags ++ ["extra"] }, true) := by
  refine ⟨?_, ?_, ?_⟩
  · exact ((compose_tag_untag_spec wTags wCompose "alice" "nightly" none
      3).1 (by decide)).2
  · exact (compose_tag_untag_spec wTags wCompose "alice" "periodic" none
      3).2.1 wPeriodic (by decide) (by decide)
  · have h := (compose_tag_untag_spec wTags wCompose "alice" "extra" none
      3).2.2.1 wExtra (by decide) (by decide)
    rw [h]; rfl

theorem resolveParents_first_missing (s : Store) (pid : String)
    (rest : List String) :
    ∀ pre : List String,
    (∀ q ∈ pre, (s.composes.find? (fun r => r.id == q)).isSome) →
    s.composes.find? (fun r => r.id == pid) = none →
    resolveParents s (pre ++ pid :: rest) =
      Except.error ("Cannot find parent compose with id " ++ pid ++ ".") := by
  intro pre
  induction pre with
  | nil =>
    intro _ hmiss
    simp only [List.nil_append, resolveParents, hmiss]
  | cons q pre ih =>
    intro hpre hmiss
    have hq := hpre q (List.mem_cons_self q pre)
    obtain ⟨row, hrow⟩ := Option.isSome_iff_exists.mp hq
    have hrec := ih (fun q' hq' => hpre q' (List.mem_cons_of_mem q hq'))
      hmiss
    simp only [List.cons_append, resolveParents, hrow, List.append_eq,
      hrec]

/-- C3: a create-compose call whose `parent_compose_ids` contains an id
with no matching Compose row, or whose `respin_of` id has no matching row,
raises a not-found error naming the missing id before any insert is
attempted, and the store (composes, relationship links, audit rows) is
unchanged. -/
theorem create_missing_parent_respin_aborts (s : Store) (builder : String)
    (ci : CI) (userData : Option String) (composeUrl : Option String)
    (now fuel : Nat) :
    (∀ (pre : List String) (pid : String) (rest : List String)
        (respinOf : Option String),
      (∀ q ∈ pre, ∃ r ∈ s.composes, r.id = q) →
      (∀ r ∈ s.composes, r.id ≠ pid) →
      Compose.create s builder ci userData (pre ++ pid :: rest) respinOf
          composeUrl now fuel =
        some (s, Except.error
          ("Cannot find parent compose with id " ++ pid ++ "."))) ∧
    (∀ (parentComposeIds : List String) (rid : String),
      (∀ q ∈ parentComposeIds, ∃ r ∈ s.composes, r.id = q) →
      (∀ r ∈ s.composes, r.id ≠ rid) →
      Compose.create s builder ci userData parentComposeIds (some rid)
          composeUrl now fuel =
        some (s, Except.error
          ("Cannot find respin_of compose with id " ++ rid ++ "."))) := by
  constructor
  · intro pre pid rest respinOf hpre hmiss
    have hfind : s.composes.find? (fun r => r.id == pid) = none := by
      rw [List.find?_eq_none]
      intro r hr
      simpa using hmiss r hr
    have hres := resolveParents_first_missing s pid rest pre
      (fun q hq => by
        obtain ⟨r, hr, hid⟩ := hpre q hq
        rw [List.find?_isSome]
        exact ⟨r, hr, by simpa using hid⟩)
      hfind
    rw [Compose.create, hres]
  · intro parentComposeIds rid hpar hmiss
    have hfind : s.composes.find? (fun r => r.id == rid) = none := by
      rw [List.find?_eq_none]
      intro r hr
      simpa using hmiss r hr
    have hres : ∃ rows, resolveParents s parentComposeIds =
        Except.ok rows := by
      clear hmiss hfind
      induction parentComposeIds with
      | nil => exact ⟨[], rfl⟩
      | cons q qs ih =>
        obtain ⟨r, hr, hid⟩ := hpar q (List.mem_cons_self q qs)
        have hfq : (s.composes.find? (fun row => row.id == q)).isSome := by
          rw [List.find?_isSome]
          exact ⟨r, hr, by simpa using hid⟩
        obtain ⟨row, hrow⟩ := Option.isSome_iff_exists.mp hfq
        obtain ⟨rows, hrows⟩ :=
          ih (fun q' hq' => hpar q' (List.mem_cons_of_mem q hq'))
        exact ⟨row :: rows, by
          simp only [resolveParents, hrow, hrows]⟩
    obtain ⟨rows, hrows⟩ := hres
    rw [Compose.create, hrows]
    simp only [resolveRespinOf, hfind]

/-- Witness for C3: creating against a store holding only compose `P-1`
with an unknown parent id and an unknown respin-of id each abort with the
naming error and leave the store unchanged. -/
theorem create_missing_parent_respin_aborts_witness :
    Compose.create
        { composes := [mkKwargs "odcs" none
            { composeId := "", releaseShort := "P", releaseVersion := "1"
              releaseName := "P", date := "20200517", respin := 1
              composeType := "nightly", label := none, final := false
              releaseIsLayered := false, releaseType := none
              releaseInternal := false, baseProductName := none
              baseProductShort := none, baseProductVersion := none
              baseProductType := none }], changes := [] }
        "odcs"
        { composeId := "", releaseShort := "F", releaseVersion := "33"
          releaseName := "F", date := "20200518", respin := 0
          composeType := "nightly", label := none, final := false
          releaseIsLayered := false, releaseType := none
          releaseInternal := false, baseProductName := none
          baseProductShort := none, baseProductVersion := none
          baseProductType := none }
        none ["P-1-20200517.n.1", "NOPE-1"] none none 9 5 =
      some ({ composes := [mkKwargs "odcs" none
            { composeId := "", releaseShort := "P", releaseVersion := "1"
              releaseName := "P", date := "20200517", respin := 1
              composeType := "nightly", label := none, final := false
              releaseIsLayered := false, releaseType := none
              releaseInternal := false, baseProductName := none
              baseProductShort := none, baseProductVersion := none
              baseProductType := none }], changes := [] },
        Except.error "Cannot find parent compose with id NOPE-1.") := by
  have h := (create_missing_parent_respin_aborts
    { composes := [mkKwargs "odcs" none
        { composeId := "", releaseShort := "P", releaseVersion := "1"
          releaseName := "P", date := "20200517", respin := 1
          composeType := "nightly", label := none, final := false
          releaseIsLayered := false, releaseType := none
          releaseInternal := false, baseProductName := none
          baseProductShort := none, baseProductVersion := none
          baseProductType := none }], changes := [] }
    "odcs"
    { composeId := "", releaseShort := "F", releaseVersion := "33"
      releaseName := "F", date := "20200518", respin := 0
      composeType := "nightly", label := none, final := false
      releaseIsLayered := false, releaseType := none
      releaseInternal := false, baseProductName := none
      baseProductShort := none, baseProductVersion := none
      baseProductType := none }
    none none 9 5).1 ["P-1-20200517.n.1"] "NOPE-1" [] none
  exact h (by decide) (by decide)

/-- C2: in the allocator's retry loop a uniqueness failure on insert is
handled by re-querying for a compose with the same id or the same
`release_date_respin`: if such a row exists the respin is incremented by
exactly 1 and the id recomputed and the insert retried; if no such row
exists the original error is propagated and the loop does not retry.  The
last two conjuncts tie the handler to the loop: a conflicting insert makes
the loop retry with the bumped metadata, a conflict-free insert commits
immediately. -/
theorem create_retry_conflict_handling (s : Store) (cid rdr : String)
    (ci : CI) (builder : String) (composeUrl : Option String) (fuel : Nat) :
    ((∃ row ∈ s.composes, conflictsWith row cid rdr = true) →
      retryDecision s cid rdr ci = Except.ok ci.bumpRespin ∧
      ci.bumpRespin.respin = ci.respin + 1 ∧
      ci.bumpRespin.composeId =
        (ci.setRespin (ci.respin + 1)).createComposeId) ∧
    ((∀ row ∈ s.composes, conflictsWith row cid rdr = false) →
      retryDecision s cid rdr ci = Except.error integrityErrorMsg) ∧
    (s.composes.any (fun r =>
        conflictsWith r ci.createComposeId ci.releaseDateRespin) = true →
      createLoop builder composeUrl s ci (fuel + 1) =
        createLoop builder composeUrl s ci.bumpRespin fuel) ∧
    (s.composes.any (fun r =>
        conflictsWith r ci.createComposeId ci.releaseDateRespin) = false →
      createLoop builder composeUrl s ci (fuel + 1) =
        some (Except.ok
          ({ s with composes := s.composes ++ [mkKwargs builder composeUrl
              ci] }, mkKwargs builder composeUrl ci, ci))) := by
  refine ⟨fun hex => ?_, fun hall => ?_, fun hany => ?_, fun hany => ?_⟩
  · have hfind : (s.composes.find? (fun r =>
        conflictsWith r cid rdr)).isSome := List.find?_isSome.mpr hex
    obtain ⟨row, hrow⟩ := Option.isSome_iff_exists.mp hfind
    rw [retryDecision, findConflict, hrow]
    exact ⟨rfl, rfl, rfl⟩
  · have hfind : s.composes.find? (fun r => conflictsWith r cid rdr) =
        none := List.find?_eq_none.mpr (fun x hx => by simp [hall x hx])
    rw [retryDecision, findConflict, hfind]
  · have hdec : retryDecision s (mkKwargs builder composeUrl ci).id
        ci.releaseDateRespin ci = Except.ok ci.bumpRespin := by
      have hfind : (s.composes.find? (fun r => conflictsWith r
          (mkKwargs builder composeUrl ci).id
          ci.releaseDateRespin)).isSome :=
        List.find?_isSome.mpr (List.any_eq_true.mp hany)
      obtain ⟨row, hrow⟩ := Option.isSome_iff_exists.mp hfind
      rw [retryDecision, findConflict, hrow]
    have hany' : (s.composes.any fun r => conflictsWith r
        (mkKwargs builder composeUrl ci).id ci.releaseDateRespin) = true :=
      hany
    simp only [createLoop, tryInsert, hany', if_true, hdec]
  · have hany' : (s.composes.any fun r => conflictsWith r
        (mkKwargs builder composeUrl ci).id ci.releaseDateRespin) =
        false := hany
    simp only [createLoop, tryInsert, hany', Bool.false_eq_true, if_false]

/-- Witness for C2: against a store holding `F-33-20200518.n.0`, a
conflicting metadata record makes the handler bump the respin to 1 and
recompute the id, the loop commits the bumped row, and against an empty
store the handler propagates the error. -/
theorem create_retry_conflict_handling_witness :
    retryDecision
        { composes := [mkKwargs "odcs" none
            { composeId := "", releaseShort := "F", releaseVersion := "33"
              releaseName := "F", date := "20200518", respin := 0
              composeType := "nightly", label := none, final := false
              releaseIsLayered := false, releaseType := none
              releaseInternal := false, baseProductName := none
              baseProductShort := none, baseProductVersion := none
              baseProductType := none }], changes := [] }
        "F-33-20200518.n.0" "F-33-20200518.0"
        { composeId := "", releaseShort := "F", releaseVersion := "33"
          releaseName := "F", date := "20200518", respin := 0
          composeType := "nightly", label := none, final := false
          releaseIsLayered := false, releaseType := none
          releaseInternal := false, baseProductName := none
          baseProductShort := none, baseProductVersion := none
          baseProductType := none } =
      Except.ok (CI.bumpRespin
        { composeId := "", releaseShort := "F", releaseVersion := "33"
          releaseName := "F", date := "20200518", respin := 0
          composeType := "nightly", label := none, final := false
          releaseIsLayered := false, releaseType := none
          releaseInternal := false, baseProductName := none
          baseProductShort := none, baseProductVersion := none
          baseProductType := none }) ∧
    retryDecision { composes := [], changes := [] } "a" "b"
        { composeId := "", releaseShort := "F", releaseVersion := "33"
          releaseName := "F", date := "20200518", respin := 0
          composeType := "nightly", label := none, final := false
          releaseIsLayered := false, releaseType := none
          releaseInternal := false, baseProductName := none
          baseProductShort := none, baseProductVersion := none
          baseProductType := none } = Except.error integrityErrorMsg := by
  constructor
  · exact ((create_retry_conflict_handling
      { composes := [mkKwargs "odcs" none
          { composeId := "", releaseShort := "F", releaseVersion := "33"
            releaseName := "F", date := "20200518", respin := 0
            composeType := "nightly", label := none, final := false
            releaseIsLayered := false, releaseType := none
            releaseInternal := false, baseProductName := none
            baseProductShort := none, baseProductVersion := none
            baseProductType := none }], changes := [] }
      "F-33-20200518.n.0" "F-33-20200518.0"
      { composeId := "", releaseShort := "F", releaseVersion := "33"
        releaseName := "F", date := "20200518", respin := 0
        composeType := "nightly", label := none, final := false
        releaseIsLayered := false, releaseType := none
        releaseInternal := false, baseProductName := none
        baseProductShort := none, baseProductVersion := none
        baseProductType := none } "odcs" none 0).1
      (by decide)).1
  · exact (create_retry_conflict_handling
      { composes := [], changes := [] } "a" "b"
      { composeId := "", releaseShort := "F", releaseVersion := "33"
        releaseName := "F", date := "20200518", respin := 0
        composeType := "nightly", label := none, final := false
        releaseIsLayered := false, releaseType := none
        releaseInternal := false, baseProductName := none
        baseProductShort := none, baseProductVersion := none
        baseProductType := none } "odcs" none 0).2.1
      (by decide)

theorem latestMatch_eq_none (cid tagName : String)
    (l : List ComposeChangeRow)
    (h : ∀ ch ∈ l, matchesTaggedQuery cid tagName ch = false) :
    latestMatch cid tagName l = none := by
  induction l with
  | nil => rfl
  | cons ch rest ih =>
    have hrest := ih (fun x hx => h x (List.mem_cons_of_mem ch hx))
    have hch := h ch (List.mem_cons_self ch rest)
    simp only [latestMatch, hrest, hch, Bool.false_eq_true, if_false]

/-- C10 (implicit): if a compose carries a tag whose name contains
`requested` (here: the first such tag in its tag list) but there is no
`tagged` ComposeChange row for that compose whose message contains the
quoted tag name, then consuming the generator of `retag_stale_composes`
crashes — the most-recent-change query returns `None` and `.time` is
dereferenced unguarded — instead of skipping or reporting the tag. -/
theorem retag_stale_crashes_on_missing_change (tagsTable : List TagState)
    (c : CState) (loggedUser : String) (timeout : Nat)
    (userData : Option String) (now : Nat) (pre : List String)
    (tn : String) (post : List String) :
    c.tags = pre ++ tn :: post →
    (∀ t' ∈ pre, strHasSub t' "requested" = false) →
    strHasSub tn "requested" = true →
    (∀ ch ∈ c.changes, matchesTaggedQuery c.id tn ch = false) →
    Compose.retag_stale_composes tagsTable c loggedUser timeout userData
      now = Except.error noneTimeCrashMsg := by
  intro htags hpre hreq hnochange
  rw [Compose.retag_stale_composes, htags]
  clear htags
  induction pre with
  | nil =>
    simp only [List.nil_append, retagGo, hreq, if_true,
      latestMatch_eq_none c.id tn c.changes hnochange]
  | cons t' pre ih =>
    have ht' := hpre t' (List.mem_cons_self t' pre)
    have hrec := ih (fun x hx => hpre x (List.mem_cons_of_mem t' hx))
    simp only [List.cons_append, retagGo, ht', Bool.false_eq_true,
      if_false, List.append_eq, hrec]

/-- Witness for C10: a compose tagged `x-requested` with an empty change
history crashes when the stale-retag generator is consumed. -/
theorem retag_stale_crashes_on_missing_change_witness :
    Compose.retag_stale_composes wTags
        { id := "C-1", tags := ["periodic", "x-requested"], changes := [] }
        "root" 24 none 100 = Except.error noneTimeCrashMsg :=
  retag_stale_crashes_on_missing_change wTags
    { id := "C-1", tags := ["periodic", "x-requested"], changes := [] }
    "root" 24 none 100 ["periodic"] "x-requested" []
    (by decide) (by decide) (by decide) (by decide)

theorem usedRespin_bump (s : Store) (ci : CI) (r : Nat) :
    usedRespin s ci.bumpRespin r = usedRespin s ci r := rfl

theorem usedRespin_mono (s₁ s₂ : Store) (ci : CI) (r : Nat)
    (hsub : ∀ x ∈ s₁.composes, x ∈ s₂.composes)
    (h : usedRespin s₁ ci r = true) : usedRespin s₂ ci r = true := by
  rw [usedRespin, List.any_eq_true] at h ⊢
  obtain ⟨x, hx, hc⟩ := h
  exact ⟨x, hsub x hx, hc⟩

theorem usedRespin_false_all (s : Store) (ci : CI) (r : Nat)
    (h : usedRespin s ci r = false) :
    ∀ x ∈ s.composes, conflictsWith x ((ci.setRespin r).createComposeId)
      ((ci.setRespin r).releaseDateRespin) = false := by
  intro x hx
  cases hc : conflictsWith x ((ci.setRespin r).createComposeId)
      ((ci.setRespin r).releaseDateRespin) with
  | false => rfl
  | true =>
    have : usedRespin s ci r = true :=
      List.any_eq_true.mpr ⟨x, hx, hc⟩
    rw [this] at h
    exact absurd h (by simp)

theorem createLoop_ok_spec (builder : String) (url : Option String) :
    ∀ (fuel : Nat) (s : Store) (ci : CI) (s' : Store) (row : ComposeRow)
      (ci' : CI),
    createLoop builder url s ci fuel = some (Except.ok (s', row, ci')) →
    row = mkKwargs builder url ci' ∧
    s' = { s with composes := s.composes ++ [row] } ∧
    ci.respin ≤ ci'.respin ∧
    row.id = (ci.setRespin ci'.respin).createComposeId ∧
    row.releaseDateRespin =
      some ((ci.setRespin ci'.respin).releaseDateRespin) ∧
    row.respin = ci'.respin ∧
    (∀ r, ci.respin ≤ r → r < ci'.respin → usedRespin s ci r = true) ∧
    usedRespin s ci ci'.respin = false := by
  intro fuel
  induction fuel with
  | zero =>
    intro s ci s' row ci' h
    exact absurd h (by rw [createLoop]; simp)
  | succ n ih =>
    intro s ci s' row ci' h
    rw [createLoop, tryInsert] at h
    by_cases hany : (s.composes.any fun r =>
        conflictsWith r (mkKwargs builder url ci).id
          ci.releaseDateRespin) = true
    · rw [if_pos hany] at h
      have hused : usedRespin s ci ci.respin = true := hany
      have hfind : (s.composes.find? (fun r => conflictsWith r
          (mkKwargs builder url ci).id ci.releaseDateRespin)).isSome :=
        List.find?_isSome.mpr (List.any_eq_true.mp hany)
      obtain ⟨row₀, hrow₀⟩ := Option.isSome_iff_exists.mp hfind
      rw [retryDecision, findConflict, hrow₀] at h
      obtain ⟨h1, h2, h3, h4, h5, h6, h7, h8⟩ :=
        ih s ci.bumpRespin s' row ci' h
      have hbr : ci.bumpRespin.respin = ci.respin + 1 := rfl
      refine ⟨h1, h2, ?_, h4, h5, h6, ?_, h8⟩
      · omega
      · intro r hr1 hr2
        rcases Nat.eq_or_lt_of_le hr1 with heq | hlt
        · rw [heq] at hused
          exact hused
        · exact (usedRespin_bump s ci r) ▸ h7 r (by omega) hr2
    · rw [if_neg hany] at h
      simp only [Option.some.injEq, Except.ok.injEq, Prod.mk.injEq] at h
      obtain ⟨hs', hrow, hci⟩ := h
      subst hci
      subst hrow
      have hfalse : usedRespin s ci ci.respin = false := by
        cases hu : usedRespin s ci ci.respin with
        | false => rfl
        | true => exact absurd hu hany
      refine ⟨rfl, hs'.symm, Nat.le_refl _, rfl, rfl, rfl, ?_, hfalse⟩
      intro r hr1 hr2
      omega

theorem create_ok_spec (s : Store) (builder : String) (ci : CI)
    (userData : Option String) (pids : List String) (ro : Option String)
    (url : Option String) (now fuel : Nat) (s' : Store) (row : ComposeRow)
    (ci' : CI)
    (h : Compose.create s builder ci userData pids ro url now fuel =
      some (s', Except.ok (row, ci'))) :
    s'.composes = s.composes ++ [row] ∧
    s'.changes = s.changes ++
      [{ time := now, composeId := row.id, action := "created"
         user := builder, message := none, userData := userData }] ∧
    ci.respin ≤ row.respin ∧
    row.id = (ci.setRespin row.respin).createComposeId ∧
    row.releaseDateRespin =
      some ((ci.setRespin row.respin).releaseDateRespin) ∧
    (∀ r, ci.respin ≤ r → r < row.respin → usedRespin s ci r = true) ∧
    usedRespin s ci row.respin = false := by
  rw [Compose.create] at h
  cases hrp : resolveParents s pids with
  | error e => rw [hrp] at h; simp at h
  | ok parentComposes =>
    rw [hrp] at h
    cases hro : resolveRespinOf s ro with
    | error e => rw [hro] at h; simp at h
    | ok respinOfCompose =>
      rw [hro] at h
      cases hloop : createLoop builder url s ci fuel with
      | none => rw [hloop] at h; simp at h
      | some res =>
        rw [hloop] at h
        cases res with
        | error e => simp at h
        | ok trip =>
          obtain ⟨s₁, row₀, ciL⟩ := trip
          dsimp only at h
          obtain ⟨l1, l2, l3, l4, l5, l6, l7, l8⟩ :=
            createLoop_ok_spec builder url fuel s ci s₁ row₀ ciL hloop
          simp only [Option.some.injEq, Except.ok.injEq,
            Prod.mk.injEq] at h
          obtain ⟨hseq, hrow, hci⟩ := h
          have hnoclash : ∀ x ∈ s.composes, (x.id == row₀.id) = false := by
            intro x hx
            have := usedRespin_false_all s ci ciL.respin l8 x hx
            rw [conflictsWith, Bool.or_eq_false_iff] at this
            rw [l4]
            exact this.1
          have hmapid : s.composes.map (fun r =>
              if r.id == row₀.id then
                { r with
                  parents := parentComposes.map (fun p => p.id)
                  respinOfId := respinOfCompose.map (fun p => p.id) }
              else r) = s.composes := by
            have : ∀ x ∈ s.composes, (fun r =>
                if r.id == row₀.id then
                  { r with
                    parents := parentComposes.map (fun p => p.id)
                    respinOfId := respinOfCompose.map (fun p => p.id) }
                  else r) x = id x := by
              intro x hx
              simp only [hnoclash x hx, Bool.false_eq_true, if_false, id]
            rw [List.map_congr_left this, List.map_id]
          have hattach : (attachLinks s₁ row₀.id
              (parentComposes.map (fun p => p.id))
              (respinOfCompose.map (fun p => p.id))).composes =
              s.composes ++ [{ row₀ with
                parents := parentComposes.map (fun p => p.id)
                respinOfId := respinOfCompose.map (fun p => p.id) }] := by
            rw [attachLinks]
            rw [l2]
            simp only [List.map_append, List.map_cons, List.map_nil,
              beq_self_eq_true, if_true, hmapid]
          subst hci
          have hid : row.id = row₀.id := by rw [← hrow]
          have hresp : row.respin = row₀.respin := by rw [← hrow]
          have hrdr : row.releaseDateRespin = row₀.releaseDateRespin := by
            rw [← hrow]
          have hch : (attachLinks s₁ row₀.id
              (parentComposes.map (fun p => p.id))
              (respinOfCompose.map (fun p => p.id))).changes =
              s.changes := by
            rw [attachLinks, l2]
          rw [← hseq]
          dsimp only
          refine ⟨?_, ?_, ?_, ?_, ?_, ?_, ?_⟩
          · rw [← hrow]
            exact hattach
          · rw [hch, hid]
          · rw [hresp, l6]
            exact l3
          · rw [hid, hresp, l6]
            exact l4
          · rw [hrdr, hresp, l6]
            exact l5
          · intro r h1 h2
            rw [hresp, l6] at h2
            exact l7 r h1 h2
          · rw [hresp, l6]
            exact l8

theorem runCreateSeq_spec (builder : String) (ci : CI)
    (userData : Option String) (pids : List String) (ro : Option String)
    (url : Option String) (now fuel : Nat) :
    ∀ (n : Nat) (s sF : Store) (rows : List ComposeRow),
    runCreateSeq builder ci userData pids ro url now fuel s n =
      some (sF, rows) →
    (∀ x ∈ s.composes, x ∈ sF.composes) ∧
    (∀ row ∈ rows, ci.respin ≤ row.respin ∧
      row.id = (ci.setRespin row.respin).createComposeId ∧
      row.releaseDateRespin =
        some ((ci.setRespin row.respin).releaseDateRespin) ∧
      usedRespin s ci row.respin = false) ∧
    List.Pairwise (fun a b => a.respin < b.respin ∧ a.id ≠ b.id) rows := by
  intro n
  induction n with
  | zero =>
    intro s sF rows h
    rw [runCreateSeq] at h
    simp only [Option.some.injEq, Prod.mk.injEq] at h
    obtain ⟨hs, hr⟩ := h
    subst hs
    subst hr
    exact ⟨fun x hx => hx, fun row hrow => absurd hrow (by simp),
      List.Pairwise.nil⟩
  | succ n ih =>
    intro s sF rows h
    rw [runCreateSeq] at h
    cases hc : Compose.create s builder ci userData pids ro url now
        fuel with
    | none => rw [hc] at h; simp at h
    | some p =>
      rw [hc] at h
      obtain ⟨s₁, res⟩ := p
      cases res with
      | error e => simp at h
      | ok pair =>
        obtain ⟨row₁, ci₁⟩ := pair
        dsimp only at h
        cases hrec : runCreateSeq builder ci userData pids ro url now
            fuel s₁ n with
        | none => rw [hrec] at h; simp at h
        | some q =>
          rw [hrec] at h
          obtain ⟨s₂, rest⟩ := q
          dsimp only at h
          simp only [Option.some.injEq, Prod.mk.injEq] at h
          obtain ⟨hsF, hrows⟩ := h
          subst hsF
          subst hrows
          obtain ⟨a1, a2, a3, a4, a5, a6, a7⟩ :=
            create_ok_spec s builder ci userData pids ro url now fuel
              s₁ row₁ ci₁ hc
          obtain ⟨b1, b2, b3⟩ := ih s₁ s₂ rest hrec
          have hsub : ∀ x ∈ s.composes, x ∈ s₁.composes := by
            intro x hx
            rw [a1]
            exact List.mem_append_left _ hx
          have hrow₁mem : row₁ ∈ s₁.composes := by
            rw [a1]
            exact List.mem_append_right _ (List.mem_singleton.mpr rfl)
          have hused₁ : usedRespin s₁ ci row₁.respin = true := by
            rw [usedRespin, List.any_eq_true]
            refine ⟨row₁, hrow₁mem, ?_⟩
            rw [conflictsWith, a4]
            simp
          refine ⟨fun x hx => b1 x (hsub x hx), ?_, ?_⟩
          · intro row hrow
            rcases List.mem_cons.mp hrow with heq | hmem
            · subst heq
              exact ⟨a3, a4, a5, a7⟩
            · obtain ⟨c1, c2, c3, c4⟩ := b2 row hmem
              refine ⟨c1, c2, c3, ?_⟩
              cases hu : usedRespin s ci row.respin with
              | false => rfl
              | true =>
                rw [usedRespin_mono s s₁ ci row.respin hsub hu] at c4
                exact absurd c4 (by simp)
          · rw [List.pairwise_cons]
            refine ⟨?_, b3⟩
            intro row hrow
            obtain ⟨c1, c2, c3, c4⟩ := b2 row hrow
            have hlt : row₁.respin < row.respin := by
              rcases Nat.lt_trichotomy row.respin row₁.respin with hl | he
                | hg
              · have := usedRespin_mono s s₁ ci row.respin hsub
                  (a6 row.respin c1 hl)
                rw [this] at c4
                exact absurd c4 (by simp)
              · rw [he] at c4
                rw [hused₁] at c4
                exact absurd c4 (by simp)
              · exact hg
            refine ⟨hlt, ?_⟩
            have hconf := usedRespin_false_all s₁ ci row.respin c4 row₁
              hrow₁mem
            rw [conflictsWith, Bool.or_eq_false_iff] at hconf
            have hne : row₁.id ≠ (ci.setRespin row.respin).createComposeId
              := ne_of_beq_false hconf.1
            rw [c2]
            exact hne

/-- C1: for every sequence of create-compose calls with identical
metadata (same release_short, release_version, date — and the same
caller-supplied starting respin), the persisted composes have pairwise
distinct ids and strictly increasing respin values, because each call that
hits an existing id or `release_date_respin` increments the respin until
it lands on an unused value (second conjunct: every respin below the one
a successful call landed on was occupied in the starting store, and the
landing respin was free). -/
theorem compose_create_unique_ids_increasing_respins (builder : String)
    (ci : CI) (userData : Option String) (pids : List String)
    (ro : Option String) (url : Option String) (now fuel : Nat)
    (s : Store) (n : Nat) :
    List.Pairwise (fun a b => a.respin < b.respin ∧ a.id ≠ b.id)
      (createdRows builder ci userData pids ro url now fuel s n) ∧
    (∀ (s' : Store) (row : ComposeRow) (ci' : CI),
      Compose.create s builder ci userData pids ro url now fuel =
        some (s', Except.ok (row, ci')) →
      (∀ r, ci.respin ≤ r → r < row.respin → usedRespin s ci r = true) ∧
      usedRespin s ci row.respin = false) := by
  constructor
  · rw [createdRows]
    cases hrun : runCreateSeq builder ci userData pids ro url now fuel
        s n with
    | none => exact List.Pairwise.nil
    | some p =>
      obtain ⟨sF, rows⟩ := p
      exact (runCreateSeq_spec builder ci userData pids ro url now fuel
        n s sF rows hrun).2.2
  · intro s' row ci' h
    obtain ⟨_, _, _, _, _, h6, h7⟩ :=
      create_ok_spec s builder ci userData pids ro url now fuel s' row
        ci' h
    exact ⟨h6, h7⟩

/-- Witness for C1: starting from a store already holding the respin-1
compose for `Fedora-Rawhide-20200517`, a create call lands on respin 2
(respin 1 was occupied, respin 2 free), and two identical calls against an
empty store produce pairwise distinct ids with strictly increasing
respins. -/
theorem compose_create_unique_witness :
    usedRespin { composes := [mkKwargs "odcs" none wCI], changes := [] }
      wCI 1 = true ∧
    usedRespin { composes := [mkKwargs "odcs" none wCI], changes := [] }
      wCI 2 = false ∧
    List.Pairwise (fun a b => a.respin < b.respin ∧ a.id ≠ b.id)
      (createdRows "odcs" wCI none [] none none 7 10
        { composes := [], changes := [] } 2) := by
  have h := compose_create_unique_ids_increasing_respins "odcs" wCI none
    [] none none 7 10
    { composes := [mkKwargs "odcs" none wCI], changes := [] } 1
  have h2 := (h.2
    { composes := [mkKwargs "odcs" none wCI,
                   mkKwargs "odcs" none wCI.bumpRespin]
      changes := [{ time := 7
                    composeId := (mkKwargs "odcs" none wCI.bumpRespin).id
                    action := "created", user := "odcs", message := none
                    userData := none }] }
    (mkKwargs "odcs" none wCI.bumpRespin) wCI.bumpRespin (by rfl))
  refine ⟨h2.1 1 (Nat.le_refl 1) (by decide), h2.2, ?_⟩
  exact (compose_create_unique_ids_increasing_respins "odcs" wCI none
    [] none none 7 10 { composes := [], changes := [] } 2).1

/-- Counterexample to C5: in `c5db` the user `alice` already holds the
tagger permission for tag 7 and that grant is already audited, yet calling
`add_tagger` with username `alice` again commits a second, identical
`add_tagger` audit row (via the commit inside `TagChange.create`) and then
fails the outer commit with an `IntegrityError` on `unique_taggers` — the
call neither succeeds nor avoids the duplicate audit row, refuting the
claimed idempotence of username-based grants. -/
theorem grant_idempotence_cex :
    (runGrantOp (fun s => Tag.add_tagger s "root" (some "alice") none none
        1) c5db).1.tag.changes =
      [{ time := 1, tagId := 7, action := "add_tagger", user := "root"
         message := some "Tagger permission granted to user \"alice\"."
         userData := none },
       { time := 1, tagId := 7, action := "add_tagger", user := "root"
         message := some "Tagger permission granted to user \"alice\"."
         userData := none }] ∧
    (runGrantOp (fun s => Tag.add_tagger s "root" (some "alice") none none
        1) c5db).1.tag.taggers = ["alice"] ∧
    (runGrantOp (fun s => Tag.add_tagger s "root" (some "alice") none none
        1) c5db).2.1 = Except.error "IntegrityError" := by
  refine ⟨by decide, by decide, rfl⟩

theorem mem_of_contains_true {l : List String} {a : String}
    (h : l.contains a = true) : a ∈ l := List.mem_of_elem_eq_true h

theorem not_mem_of_contains_false {l : List String} {a : String}
    (h : l.contains a = false) : ¬ a ∈ l := by
  intro hm
  have hc : l.contains a = true := List.elem_eq_true_of_mem hm
  exact absurd (hc.symm.trans h) (by decide)

theorem contains_eq_false_of_not_mem {l : List String} {a : String}
    (h : ¬ a ∈ l) : l.contains a = false := by
  cases hc : l.contains a with
  | false => rfl
  | true => exact absurd (List.mem_of_elem_eq_true hc) h

theorem nodupB_eq_true_iff (l : List String) :
    nodupB l = true ↔ l.Nodup := by
  induction l with
  | nil => simp [nodupB]
  | cons x xs ih =>
    rw [nodupB, Bool.and_eq_true, List.nodup_cons, ih, Bool.not_eq_true']
    constructor
    · rintro ⟨hc, hn⟩
      exact ⟨not_mem_of_contains_false hc, hn⟩
    · rintro ⟨hm, hn⟩
      exact ⟨contains_eq_false_of_not_mem hm, hn⟩

theorem nodupB_append_not_mem (l : List String) (a : String)
    (hl : nodupB l = true) (ha : ¬ a ∈ l) :
    nodupB (l ++ [a]) = true := by
  rw [nodupB_eq_true_iff] at hl ⊢
  rw [List.nodup_append]
  exact ⟨hl, List.nodup_singleton a,
    fun x hx hxa => ha ((List.mem_singleton.mp hxa) ▸ hx)⟩

theorem nodupB_append_mem (l : List String) (a : String) (ha : a ∈ l) :
    nodupB (l ++ [a]) = false := by
  cases h : nodupB (l ++ [a]) with
  | false => rfl
  | true =>
    rw [nodupB_eq_true_iff, List.nodup_append] at h
    exact absurd (h.2.2 ha (List.mem_singleton.mpr rfl)) not_false

theorem nodupB_erase (l : List String) (a : String)
    (h : nodupB l = true) : nodupB (l.erase a) = true := by
  rw [nodupB_eq_true_iff] at h ⊢
  exact h.erase a

/-- C5 amended: the group-based grants and all revocations are idempotent
(granting an already-granted group permission, or revoking a permission
that is not held, succeeds without adding a grant entry or an audit row),
and every actual state change appends exactly one TagChange row describing
it; but the username-based `add_tagger`/`add_untagger` are not idempotent:
every call commits one audit row (via the commit inside
`TagChange.create`) even when the username already holds the permission,
and in that already-held case the staged duplicate grant row then makes
the outer commit fail with an `IntegrityError`, so the duplicate audit row
persists, the grant set is unchanged and the request fails. -/
theorem grant_revoke_idempotence_amended (db : TagDb)
    (loggedUser un g : String) (userData : Option String) (now : Nat)
    (hwf : db.unique_ok = true) :
    (un ∉ db.tag.taggers →
      runGrantOp (fun s => Tag.add_tagger s loggedUser (some un) none
        userData now) db =
      ({ users := if un ∈ db.users then db.users else db.users ++ [un]
         tag := { db.tag with
           changes := db.tag.changes ++
             [{ time := now, tagId := db.tag.id, action := "add_tagger"
                user := loggedUser
                message := some ("Tagger permission granted to user \""
                  ++ un ++ "\".")
                userData := userData }]
           taggers := db.tag.taggers ++ [un] } },
       Except.ok true,
       [{ users := if un ∈ db.users then db.users else db.users ++ [un]
          tag := { db.tag with
            changes := db.tag.changes ++
              [{ time := now, tagId := db.tag.id, action := "add_tagger"
                 user := loggedUser
                 message := some ("Tagger permission granted to user \""
                   ++ un ++ "\".")
                 userData := userData }] } },
        { users := if un ∈ db.users then db.users else db.users ++ [un]
          tag := { db.tag with
            changes := db.tag.changes ++
              [{ time := now, tagId := db.tag.id, action := "add_tagger"
                 user := loggedUser
                 message := some ("Tagger permission granted to user \""
                   ++ un ++ "\".")
                 userData := userData }]
            taggers := db.tag.taggers ++ [un] } }])) ∧
    (un ∈ db.tag.taggers →
      runGrantOp (fun s => Tag.add_tagger s loggedUser (some un) none
        userData now) db =
      ({ users := if un ∈ db.users then db.users else db.users ++ [un]
         tag := { db.tag with
           changes := db.tag.changes ++
             [{ time := now, tagId := db.tag.id, action := "add_tagger"
                user := loggedUser
                message := some ("Tagger permission granted to user \""
                  ++ un ++ "\".")
                userData := userData }] } },
       Except.error "IntegrityError",
       [{ users := if un ∈ db.users then db.users else db.users ++ [un]
          tag := { db.tag with
            changes := db.tag.changes ++
              [{ time := now, tagId := db.tag.id, action := "add_tagger"
                 user := loggedUser
                 message := some ("Tagger permission granted to user \""
                   ++ un ++ "\".")
                 userData := userData }] } }])) ∧
    (db.tag.taggerGroups.contains g = true →
      runGrantOp (fun s => Tag.add_tagger s loggedUser none (some g)
        userData now) db = (db, Except.ok true, [db])) ∧
    (db.tag.taggerGroups.contains g = false →
      (runGrantOp (fun s => Tag.add_tagger s loggedUser none (some g)
        userData now) db).1.tag.taggerGroups =
          db.tag.taggerGroups ++ [g] ∧
      (runGrantOp (fun s => Tag.add_tagger s loggedUser none (some g)
        userData now) db).1.tag.changes = db.tag.changes ++
        [{ time := now, tagId := db.tag.id, action := "add_tagger"
           user := loggedUser
           message := some ("Tagger permission granted to group \""
             ++ g ++ "\".")
           userData := userData }] ∧
      (runGrantOp (fun s => Tag.add_tagger s loggedUser none (some g)
        userData now) db).2.1 = Except.ok true) ∧
    (db.users.contains un = true → db.tag.taggers.contains un = false →
      runGrantOp (fun s => Tag.remove_tagger s loggedUser (some un) none
        userData now) db = (db, Except.ok true, [db])) ∧
    (db.users.contains un = false →
      runGrantOp (fun s => Tag.remove_tagger s loggedUser (some un) none
        userData now) db = (db, Except.ok false, [])) ∧
    (db.users.contains un = true → db.tag.taggers.contains un = true →
      (runGrantOp (fun s => Tag.remove_tagger s loggedUser (some un) none
        userData now) db).1.tag.taggers = db.tag.taggers.erase un ∧
      (runGrantOp (fun s => Tag.remove_tagger s loggedUser (some un) none
        userData now) db).1.tag.changes = db.tag.changes ++
        [{ time := now, tagId := db.tag.id, action := "remove_tagger"
           user := loggedUser
           message := some ("Tagger permission removed from user \""
             ++ un ++ "\".")
           userData := userData }] ∧
      (runGrantOp (fun s => Tag.remove_tagger s loggedUser (some un) none
        userData now) db).2.1 = Except.ok true) ∧
    (db.tag.taggerGroups.contains g = false →
      runGrantOp (fun s => Tag.remove_tagger s loggedUser none (some g)
        userData now) db = (db, Except.ok true, [db])) ∧
    (un ∉ db.tag.untaggers →
      (runGrantOp (fun s => Tag.add_untagger s loggedUser (some un) none
        userData now) db).1.tag.untaggers = db.tag.untaggers ++ [un] ∧
      (runGrantOp (fun s => Tag.add_untagger s loggedUser (some un) none
        userData now) db).1.tag.changes = db.tag.changes ++
        [{ time := now, tagId := db.tag.id, action := "add_untagger"
           user := loggedUser
           message := some ("Untagger permission granted to user \""
             ++ un ++ "\".")
           userData := userData }] ∧
      (runGrantOp (fun s => Tag.add_untagger s loggedUser (some un) none
        userData now) db).2.1 = Except.ok true) ∧
    (un ∈ db.tag.untaggers →
      (runGrantOp (fun s => Tag.add_untagger s loggedUser (some un) none
        userData now) db).1.tag.untaggers = db.tag.untaggers ∧
      (runGrantOp (fun s => Tag.add_untagger s loggedUser (some un) none
        userData now) db).1.tag.changes = db.tag.changes ++
        [{ time := now, tagId := db.tag.id, action := "add_untagger"
           user := loggedUser
           message := some ("Untagger permission granted to user \""
             ++ un ++ "\".")
           userData := userData }] ∧
      (runGrantOp (fun s => Tag.add_untagger s loggedUser (some un) none
        userData now) db).2.1 = Except.error "IntegrityError") ∧
    (db.tag.untaggerGroups.contains g = true →
      runGrantOp (fun s => Tag.add_untagger s loggedUser none (some g)
        userData now) db = (db, Except.ok true, [db])) ∧
    (db.users.contains un = true → db.tag.untaggers.contains un = false →
      runGrantOp (fun s => Tag.remove_untagger s loggedUser (some un) none
        userData now) db = (db, Except.ok true, [db])) ∧
    (db.tag.untaggerGroups.contains g = false →
      runGrantOp (fun s => Tag.remove_untagger s loggedUser none (some g)
        userData now) db = (db, Except.ok true, [db])) := by
  have hw := hwf
  simp only [TagDb.unique_ok, Bool.and_eq_true] at hw
  obtain ⟨⟨⟨⟨hw1, hw2⟩, hw3⟩, hw4⟩, hw5⟩ := hw
  refine ⟨?_, ?_, ?_, ?_, ?_, ?_, ?_, ?_, ?_, ?_, ?_, ?_, ?_⟩
  · intro hun
    have hta : nodupB (db.tag.taggers ++ [un]) = true :=
      nodupB_append_not_mem _ _ hw2 hun
    by_cases hm : un ∈ db.users
    · simp [runGrantOp, Tag.add_tagger, Sess.init, Sess.getOrCreateUser,
        TagChange.create, Sess.commit, Sess.appendTagger,
        TagDb.unique_ok, hm, hw1, hw2, hw3, hw4, hw5, hta]
    · have hu : nodupB (db.users ++ [un]) = true :=
        nodupB_append_not_mem _ _ hw1 hm
      simp [runGrantOp, Tag.add_tagger, Sess.init, Sess.getOrCreateUser,
        TagChange.create, Sess.commit, Sess.appendTagger,
        TagDb.unique_ok, hm, hw1, hw2, hw3, hw4, hw5, hta, hu]
  · intro hun
    have hta : nodupB (db.tag.taggers ++ [un]) = false :=
      nodupB_append_mem _ _ hun
    by_cases hm : un ∈ db.users
    · simp [runGrantOp, Tag.add_tagger, Sess.init, Sess.getOrCreateUser,
        TagChange.create, Sess.commit, Sess.appendTagger,
        TagDb.unique_ok, hm, hw1, hw2, hw3, hw4, hw5, hta]
    · have hu : nodupB (db.users ++ [un]) = true :=
        nodupB_append_not_mem _ _ hw1 hm
      simp [runGrantOp, Tag.add_tagger, Sess.init, Sess.getOrCreateUser,
        TagChange.create, Sess.commit, Sess.appendTagger,
        TagDb.unique_ok, hm, hw1, hw2, hw3, hw4, hw5, hta, hu]
  · intro hg
    simp [runGrantOp, Tag.add_tagger, Sess.init, Sess.commit,
      TagDb.unique_ok, mem_of_contains_true hg, hw1, hw2, hw3, hw4, hw5]
  · intro hg
    have hng := not_mem_of_contains_false hg
    have htg : nodupB (db.tag.taggerGroups ++ [g]) = true :=
      nodupB_append_not_mem _ _ hw4 hng
    refine ⟨?_, ?_, ?_⟩ <;>
      simp [runGrantOp, Tag.add_tagger, Sess.init, TagChange.create,
        Sess.commit, Sess.appendTaggerGroup, TagDb.unique_ok, hng,
        hw1, hw2, hw3, hw4, hw5, htg]
  · intro hu ht
    simp [runGrantOp, Tag.remove_tagger, Tag.removeTaggerGroupPart,
      Sess.init, Sess.commit, TagDb.unique_ok, mem_of_contains_true hu,
      not_mem_of_contains_false ht, hw1, hw2, hw3, hw4, hw5]
  · intro hu
    simp [runGrantOp, Tag.remove_tagger, Sess.init, Sess.commit,
      not_mem_of_contains_false hu]
  · intro hu ht
    have hte : nodupB (db.tag.taggers.erase un) = true :=
      nodupB_erase _ _ hw2
    refine ⟨?_, ?_, ?_⟩ <;>
      simp [runGrantOp, Tag.remove_tagger, Tag.removeTaggerGroupPart,
        Sess.init, Sess.removeTagger, TagChange.create, Sess.commit,
        TagDb.unique_ok, mem_of_contains_true hu,
        mem_of_contains_true ht, hw1, hw2, hw3, hw4, hw5, hte]
  · intro hg
    simp [runGrantOp, Tag.remove_tagger, Tag.removeTaggerGroupPart,
      Sess.init, Sess.commit, TagDb.unique_ok,
      not_mem_of_contains_false hg, hw1, hw2, hw3, hw4, hw5]
  · intro hun
    have hta : nodupB (db.tag.untaggers ++ [un]) = true :=
      nodupB_append_not_mem _ _ hw3 hun
    by_cases hm : un ∈ db.users
    · refine ⟨?_, ?_, ?_⟩ <;>
        simp [runGrantOp, Tag.add_untagger, Sess.init,
          Sess.getOrCreateUser, TagChange.create, Sess.commit,
          Sess.appendUntagger, TagDb.unique_ok, hm, hw1, hw2, hw3, hw4,
          hw5, hta]
    · have hu : nodupB (db.users ++ [un]) = true :=
        nodupB_append_not_mem _ _ hw1 hm
      refine ⟨?_, ?_, ?_⟩ <;>
        simp [runGrantOp, Tag.add_untagger, Sess.init,
          Sess.getOrCreateUser, TagChange.create, Sess.commit,
          Sess.appendUntagger, TagDb.unique_ok, hm, hw1, hw2, hw3, hw4,
          hw5, hta, hu]
  · intro hun
    have hta : nodupB (db.tag.untaggers ++ [un]) = false :=
      nodupB_append_mem _ _ hun
    by_cases hm : un ∈ db.users
    · refine ⟨?_, ?_, ?_⟩ <;>
        simp [runGrantOp, Tag.add_untagger, Sess.init,
          Sess.getOrCreateUser, TagChange.create, Sess.commit,
          Sess.appendUntagger, TagDb.unique_ok, hm, hw1, hw2, hw3, hw4,
          hw5, hta]
    · have hu : nodupB (db.users ++ [un]) = true :=
        nodupB_append_not_mem _ _ hw1 hm
      refine ⟨?_, ?_, ?_⟩ <;>
        simp [runGrantOp, Tag.add_untagger, Sess.init,
          Sess.getOrCreateUser, TagChange.create, Sess.commit,
          Sess.appendUntagger, TagDb.unique_ok, hm, hw1, hw2, hw3, hw4,
          hw5, hta, hu]
  · intro hg
    simp [runGrantOp, Tag.add_untagger, Sess.init, Sess.commit,
      TagDb.unique_ok, mem_of_contains_true hg, hw1, hw2, hw3, hw4, hw5]
  · intro hu ht
    simp [runGrantOp, Tag.remove_untagger, Tag.removeUntaggerGroupPart,
      Sess.init, Sess.commit, TagDb.unique_ok, mem_of_contains_true hu,
      not_mem_of_contains_false ht, hw1, hw2, hw3, hw4, hw5]
  · intro hg
    simp [runGrantOp, Tag.remove_untagger, Tag.removeUntaggerGroupPart,
      Sess.init, Sess.commit, TagDb.unique_ok,
      not_mem_of_contains_false hg, hw1, hw2, hw3, hw4, hw5]

/-- Witness for C5 amended: on `c5db` the re-grant to `alice` commits the
duplicate audit row and then fails the outer commit leaving the grant set
unchanged; a fresh grant to `bob` succeeds with one entry and one row;
revoking the never-granted untagger permission of `alice` and revoking the
absent group `qa` are no-ops. -/
theorem grant_revoke_idempotence_amended_witness :
    (runGrantOp (fun s => Tag.add_tagger s "root" (some "alice") none none
        1) c5db).1.tag.taggers = ["alice"] ∧
    (runGrantOp (fun s => Tag.add_tagger s "root" (some "alice") none none
        1) c5db).2.1 = Except.error "IntegrityError" ∧
    (runGrantOp (fun s => Tag.add_tagger s "root" (some "bob") none none
        1) c5db).1.tag.taggers = ["alice", "bob"] ∧
    (runGrantOp (fun s => Tag.add_tagger s "root" (some "bob") none none
        1) c5db).2.1 = Except.ok true ∧
    runGrantOp (fun s => Tag.remove_untagger s "root" (some "alice") none
        none 1) c5db = (c5db, Except.ok true, [c5db]) ∧
    runGrantOp (fun s => Tag.remove_tagger s "root" none (some "qa")
        none 1) c5db = (c5db, Except.ok true, [c5db]) := by
  have h := grant_revoke_idempotence_amended c5db "root" "alice" "qa"
    none 1 (by decide)
  have hb := grant_revoke_idempotence_amended c5db "root" "bob" "qa"
    none 1 (by decide)
  refine ⟨?_, ?_, ?_, ?_, ?_, ?_⟩
  · rw [h.2.1 (by decide)]
    decide
  · rw [h.2.1 (by decide)]
  · rw [hb.1 (by decide)]
    decide
  · rw [hb.1 (by decide)]
  · exact h.2.2.2.2.2.2.2.2.2.2.2.1 (by decide) (by decide)
  · exact h.2.2.2.2.2.2.2.1 (by decide)

/-- Counterexample to C6: granting `bob` the tagger permission on `c6db`
produces two committed states; the first one (the commit issued inside
`TagChange.create`) already contains the `add_tagger` audit row while the
`taggers` grant set is still empty — a committed state with the audit row
and without the mutation it describes, contradicting the same-transaction
claim. -/
theorem audit_atomicity_cex :
    (runGrantOp (fun s => Tag.add_tagger s "root" (some "bob") none none 4)
        c6db).2.2.head? = some
      { users := ["root", "bob"]
        tag := { id := 9, name := "periodic", description := "d"
                 documentation := "u", taggers := [], untaggers := []
                 taggerGroups := [], untaggerGroups := []
                 changes := [{ time := 4, tagId := 9
                               action := "add_tagger", user := "root"
                               message := some
                                 "Tagger permission granted to user \"bob\"."
                               userData := none }] } } ∧
    (runGrantOp (fun s => Tag.add_tagger s "root" (some "bob") none none 4)
        c6db).1.tag.taggers = ["bob"] := by
  refine ⟨by decide, by decide⟩

/-- C6 amended: every state-changing action appends exactly one audit row,
and for `tag`/`untag` the row is staged together with the mutation in the
single state update the outer commit persists; but a username permission
grant commits its audit row one transaction before the grant mutation
(`TagChange.create` issues its own commit), so a committed state can
contain the audit row without the mutation it describes — and when the
grant is already held, the outer commit fails on `unique_taggers` and the
audit row stays committed while the mutation never commits at all. -/
theorem audit_one_row_per_action_amended (db : TagDb)
    (tagsTable : List TagState) (c : CState)
    (loggedUser un tagName : String) (userData : Option String)
    (now : Nat) (s : Store) (builder : String) (ci : CI)
    (pids : List String) (ro : Option String) (url : Option String)
    (fuel : Nat) (hwf : db.unique_ok = true) :
    (un ∉ db.tag.taggers →
      (runGrantOp (fun sess => Tag.add_tagger sess loggedUser (some un)
        none userData now) db).2.2 =
      [{ users := if un ∈ db.users then db.users else db.users ++ [un]
         tag := { db.tag with changes := db.tag.changes ++
           [{ time := now, tagId := db.tag.id, action := "add_tagger"
              user := loggedUser
              message := some ("Tagger permission granted to user \""
                ++ un ++ "\".")
              userData := userData }] } },
       { users := if un ∈ db.users then db.users else db.users ++ [un]
         tag := { db.tag with
           changes := db.tag.changes ++
             [{ time := now, tagId := db.tag.id, action := "add_tagger"
                user := loggedUser
                message := some ("Tagger permission granted to user \""
                  ++ un ++ "\".")
                userData := userData }]
           taggers := db.tag.taggers ++ [un] } }]) ∧
    (un ∈ db.tag.taggers →
      (runGrantOp (fun sess => Tag.add_tagger sess loggedUser (some un)
        none userData now) db).2.2 =
      [{ users := if un ∈ db.users then db.users else db.users ++ [un]
         tag := { db.tag with changes := db.tag.changes ++
           [{ time := now, tagId := db.tag.id, action := "add_tagger"
              user := loggedUser
              message := some ("Tagger permission granted to user \""
                ++ un ++ "\".")
              userData := userData }] } }]) ∧
    (∀ t, Tag.get_by_name tagsTable tagName = some t →
      t.name ∉ c.tags →
      (Compose.tag tagsTable c loggedUser tagName userData now).1 =
        { c with
          changes := c.changes ++
            [{ time := now, composeId := c.id, action := "tagged"
               user := loggedUser, userData := userData
               message := some ("User \"" ++ loggedUser ++ "\" added \""
                 ++ tagName ++ "\" tag.") }]
          tags := c.tags ++ [t.name] }) ∧
    (∀ t, Tag.get_by_name tagsTable tagName = some t →
      t.name ∈ c.tags →
      (Compose.untag tagsTable c loggedUser tagName userData now).1 =
        { c with
          changes := c.changes ++
            [{ time := now, composeId := c.id, action := "untagged"
               user := loggedUser, userData := userData
               message := some ("User \"" ++ loggedUser ++ "\" removed \""
                 ++ tagName ++ "\" tag.") }]
          tags := c.tags.erase t.name }) ∧
    (∀ (s' : Store) (row : ComposeRow) (ci' : CI),
      Compose.create s builder ci userData pids ro url now fuel =
        some (s', Except.ok (row, ci')) →
      s'.changes = s.changes ++
        [{ time := now, composeId := row.id, action := "created"
           user := builder, message := none, userData := userData }]) := by
  have hw := hwf
  simp only [TagDb.unique_ok, Bool.and_eq_true] at hw
  obtain ⟨⟨⟨⟨hw1, hw2⟩, hw3⟩, hw4⟩, hw5⟩ := hw
  refine ⟨?_, ?_, ?_, ?_, ?_⟩
  · intro hun
    have hta : nodupB (db.tag.taggers ++ [un]) = true :=
      nodupB_append_not_mem _ _ hw2 hun
    by_cases hm : un ∈ db.users
    · simp [runGrantOp, Tag.add_tagger, Sess.init, Sess.getOrCreateUser,
        TagChange.create, Sess.commit, Sess.appendTagger,
        TagDb.unique_ok, hm, hw1, hw2, hw3, hw4, hw5, hta]
    · have hu : nodupB (db.users ++ [un]) = true :=
        nodupB_append_not_mem _ _ hw1 hm
      simp [runGrantOp, Tag.add_tagger, Sess.init, Sess.getOrCreateUser,
        TagChange.create, Sess.commit, Sess.appendTagger,
        TagDb.unique_ok, hm, hw1, hw2, hw3, hw4, hw5, hta, hu]
  · intro hun
    have hta : nodupB (db.tag.taggers ++ [un]) = false :=
      nodupB_append_mem _ _ hun
    by_cases hm : un ∈ db.users
    · simp [runGrantOp, Tag.add_tagger, Sess.init, Sess.getOrCreateUser,
        TagChange.create, Sess.commit, Sess.appendTagger,
        TagDb.unique_ok, hm, hw1, hw2, hw3, hw4, hw5, hta]
    · have hu : nodupB (db.users ++ [un]) = true :=
        nodupB_append_not_mem _ _ hw1 hm
      simp [runGrantOp, Tag.add_tagger, Sess.init, Sess.getOrCreateUser,
        TagChange.create, Sess.commit, Sess.appendTagger,
        TagDb.unique_ok, hm, hw1, hw2, hw3, hw4, hw5, hta, hu]
  · intro t ht hmem
    rw [Compose.tag, ht]
    have hc : c.tags.contains t.name = false := by
      cases h : c.tags.contains t.name with
      | false => rfl
      | true => exact absurd (List.mem_of_elem_eq_true h) hmem
    simp only [hc, Bool.false_eq_true, if_false]
  · intro t ht hmem
    rw [Compose.untag, ht]
    simp only [List.elem_eq_true_of_mem hmem, if_true]
  · intro s' row ci' h
    exact (create_ok_spec s builder ci userData pids ro url now fuel s'
      row ci' h).2.1

/-- Witness for C6 amended: the two committed states of the fresh `bob`
grant on `c6db` are exhibited (audit row first, grant only in the second),
the re-grant of `alice` on `c5db` leaves a single committed state carrying
the audit row with the grant set untouched, and tagging the sample compose
shows the tag relation and the `tagged` row land in one state update. -/
theorem audit_one_row_per_action_amended_witness :
    ((runGrantOp (fun sess => Tag.add_tagger sess "root" (some "bob")
        none none 4) c6db).2.2.map (fun d => d.tag.taggers)) =
      [[], ["bob"]] ∧
    ((runGrantOp (fun sess => Tag.add_tagger sess "root" (some "bob")
        none none 4) c6db).2.2.map (fun d => d.tag.changes.length)) =
      [1, 1] ∧
    ((runGrantOp (fun sess => Tag.add_tagger sess "root" (some "alice")
        none none 7) c5db).2.2.map (fun d => d.tag.taggers)) =
      [["alice"]] ∧
    ((runGrantOp (fun sess => Tag.add_tagger sess "root" (some "alice")
        none none 7) c5db).2.2.map (fun d => d.tag.changes.length)) =
      [2] ∧
    (Compose.tag wTags wCompose "alice" "extra" none 3).1 =
      { wCompose with
        changes := wCompose.changes ++
          [{ time := 3, composeId := wCompose.id, action := "tagged"
             user := "alice", userData := none
             message := some ("User \"alice\" added \"extra\" tag.") }]
        tags := wCompose.tags ++ [wExtra.name] } := by
  have h6 := audit_one_row_per_action_amended c6db wTags wCompose "root"
    "bob" "extra" none 4 { composes := [], changes := [] } "odcs" wCI []
    none none 0 (by decide)
  have h5 := audit_one_row_per_action_amended c5db wTags wCompose "root"
    "alice" "extra" none 7 { composes := [], changes := [] } "odcs" wCI []
    none none 0 (by decide)
  have h2 := audit_one_row_per_action_amended c6db wTags wCompose "alice"
    "bob" "extra" none 3 { composes := [], changes := [] } "odcs" wCI []
    none none 0 (by decide)
  refine ⟨?_, ?_, ?_, ?_, ?_⟩
  · rw [h6.1 (by decide)]
    decide
  · rw [h6.1 (by decide)]
    decide
  · rw [h5.2.1 (by decide)]
    decide
  · rw [h5.2.1 (by decide)]
    decide
  · exact h2.2.2.1 wExtra (by decide) (by decide)

theorem stageMsg_size (cid : String) (m : EventMsg) :
    ∀ buf : Buffer, (buf.map Prod.fst).Nodup →
    bufferSize (stageMsg buf cid m) = bufferSize buf + 1 := by
  intro buf
  induction buf with
  | nil =>
    intro _
    simp [stageMsg, bufferSize]
  | cons kv rest ih =>
    intro hnodup
    rw [List.map_cons, List.nodup_cons] at hnodup
    obtain ⟨hkey, hrest⟩ := hnodup
    cases hkv : (kv.1 == cid) with
    | true =>
      have hfind : List.find? (fun x => x.1 == cid) (kv :: rest) =
          some kv := by
        simp [List.find?_cons, hkv]
      have hmaprest : rest.map (fun x =>
          if x.1 == cid then (x.1, x.2 ++ [m]) else x) = rest := by
        have hall : ∀ x ∈ rest, (fun y =>
            if y.1 == cid then (y.1, y.2 ++ [m]) else y) x = id x := by
          intro x hx
          have hxne : (x.1 == cid) = false := by
            cases hb : (x.1 == cid) with
            | false => rfl
            | true =>
              exfalso
              apply hkey
              have hx1 : x.1 = cid := eq_of_beq hb
              have hkv1 : kv.1 = cid := eq_of_beq hkv
              rw [hkv1, ← hx1]
              exact List.mem_map_of_mem Prod.fst hx
          simp only [hxne, Bool.false_eq_true, if_false, id]
        rw [List.map_congr_left hall, List.map_id]
      rw [stageMsg, hfind]
      simp only [Option.isSome_some, if_true, List.map_cons, hkv,
        if_true, hmaprest, bufferSize, List.map_cons, List.sum_cons,
        List.length_append, List.length_cons, List.length_nil]
      omega
    | false =>
      have hfind : List.find? (fun x => x.1 == cid) (kv :: rest) =
          List.find? (fun x => x.1 == cid) rest := by
        simp [List.find?_cons, hkv]
      cases hf : List.find? (fun x => x.1 == cid) rest with
      | some kv₀ =>
        have hih := ih hrest
        rw [stageMsg, hf] at hih
        simp only [Option.isSome_some, if_true] at hih
        rw [stageMsg, hfind, hf]
        simp only [Option.isSome_some, if_true, List.map_cons, hkv,
          Bool.false_eq_true, if_false]
        simp only [bufferSize, List.map_cons, List.sum_cons] at hih ⊢
        omega
      | none =>
        rw [stageMsg, hfind, hf]
        simp only [Option.isSome_none, Bool.false_eq_true, if_false]
        simp only [bufferSize, List.map_append, List.sum_append,
          List.map_cons, List.sum_cons, List.map_nil, List.sum_nil,
          List.length_cons, List.length_nil]
        omega

theorem stageMsg_keys_nodup (cid : String) (m : EventMsg)
    (buf : Buffer) (h : (buf.map Prod.fst).Nodup) :
    ((stageMsg buf cid m).map Prod.fst).Nodup := by
  rw [stageMsg]
  cases hf : List.find? (fun x => x.1 == cid) buf with
  | some kv =>
    simp only [Option.isSome_some, if_true]
    have : (buf.map (fun x => if x.1 == cid then (x.1, x.2 ++ [m])
        else x)).map Prod.fst = buf.map Prod.fst := by
      rw [List.map_map]
      refine List.map_congr_left (fun x _ => ?_)
      simp only [Function.comp_apply]
      cases hb : (x.1 == cid) with
      | true => simp [hb]
      | false => simp [hb]
    rw [this]
    exact h
  | none =>
    simp only [Option.isSome_none, Bool.false_eq_true, if_false]
    have hnot : cid ∉ buf.map Prod.fst := by
      intro hmem
      obtain ⟨x, hx, hfst⟩ := List.mem_map.mp hmem
      have := List.find?_eq_none.mp hf x hx
      rw [hfst] at this
      simp at this
    simp [List.nodup_append, h, hnot]

theorem cache_one_event_per_compose (agent : Option String) :
    ∀ (touched : List TouchedCompose) (buf : Buffer),
    (buf.map Prod.fst).Nodup →
    bufferSize (cache_composes_if_state_changed agent touched buf) =
      bufferSize buf + touched.length ∧
    ((cache_composes_if_state_changed agent touched buf).map
      Prod.fst).Nodup := by
  intro touched
  induction touched with
  | nil =>
    intro buf h
    exact ⟨rfl, h⟩
  | cons c rest ih =>
    intro buf h
    have h1 := stageMsg_size c.id (eventFor agent c) buf h
    have h2 := stageMsg_keys_nodup c.id (eventFor agent c) buf h
    have hih := ih (stageMsg buf c.id (eventFor agent c)) h2
    rw [cache_composes_if_state_changed] at hih ⊢
    rw [List.foldl_cons]
    constructor
    · rw [hih.1, h1]
      simp only [List.length_cons]
      omega
    · exact hih.2

/-- C7: the change detector classifies each touched compose into exactly
one event by first-match order — new row yields `compose-created`; else
tags added yields `compose-tagged` with the first added tag; else tags
removed yields `compose-untagged` with the first removed tag; else
`compose-changed` — and exactly one event is staged per touched compose
per flush. -/
theorem change_detector_classification (agent : Option String)
    (c : TouchedCompose) :
    (c.hist.idUnchanged = false →
      (eventFor agent c).event = "compose-created") ∧
    (∀ a rest, c.hist.idUnchanged = true → c.hist.tagsAdded = a :: rest →
      (eventFor agent c).event = "compose-tagged" ∧
      (eventFor agent c).tag = some a) ∧
    (∀ d rest, c.hist.idUnchanged = true → c.hist.tagsAdded = [] →
      c.hist.tagsDeleted = d :: rest →
      (eventFor agent c).event = "compose-untagged" ∧
      (eventFor agent c).tag = some d) ∧
    (c.hist.idUnchanged = true → c.hist.tagsAdded = [] →
      c.hist.tagsDeleted = [] →
      (eventFor agent c).event = "compose-changed") ∧
    (∀ (touched : List TouchedCompose) (buf : Buffer),
      (buf.map Prod.fst).Nodup →
      bufferSize (cache_composes_if_state_changed agent touched buf) =
        bufferSize buf + touched.length) := by
  refine ⟨?_, ?_, ?_, ?_, ?_⟩
  · intro h
    simp [eventFor, h]
  · intro a rest h ha
    constructor <;> simp [eventFor, h, ha]
  · intro d rest h ha hd
    constructor <;> simp [eventFor, h, ha, hd]
  · intro h ha hd
    simp [eventFor, h, ha, hd]
  · intro touched buf hnodup
    exact (cache_one_event_per_compose agent touched buf hnodup).1

/-- Witness for C7: the four history shapes map to the four events, the
tagged event names the first added tag, and a two-compose flush stages
exactly two messages into a one-key buffer. -/
theorem change_detector_classification_witness :
    (eventFor none hNew).event = "compose-created" ∧
    (eventFor none hTagged).event = "compose-tagged" ∧
    (eventFor none hTagged).tag = some "periodic" ∧
    (eventFor none hUntagged).event = "compose-untagged" ∧
    (eventFor none hChanged).event = "compose-changed" ∧
    bufferSize (cache_composes_if_state_changed none [hNew, hChanged]
      [("N", [])]) = 2 := by
  refine ⟨?_, ?_, ?_, ?_, ?_, ?_⟩
  · exact (change_detector_classification none hNew).1 (by rfl)
  · exact ((change_detector_classification none hTagged).2.1 "periodic"
      ["extra"] (by rfl) (by rfl)).1
  · exact ((change_detector_classification none hTagged).2.1 "periodic"
      ["extra"] (by rfl) (by rfl)).2
  · exact ((change_detector_classification none hUntagged).2.2.1
      "periodic" [] (by rfl) (by rfl) (by rfl)).1
  · exact (change_detector_classification none hChanged).2.2.2.1 (by rfl)
      (by rfl) (by rfl)
  · have h := (change_detector_classification none hNew).2.2.2.2
      [hNew, hChanged] [("N", [])] (by decide)
    rw [h]
    rfl

end CTS

